import Mathlib

/-!
The estimator of `src/estimator/estimator.js`.

A shallow embedding of `PRICING_CONFIG` and `calculateEstimate`, with the JavaScript
semantics the function relies on made explicit:

* Numbers are IEEE-754 binary64 values.  Only NaN and finite non-negative values occur,
  so a number is `nan` or the dyadic rational `mant / 2 ^ scale`; `+` and `*` compute the
  exact result and round it to 53 significant bits, ties to even; `Math.round` is
  `floor (x + 1/2)`.
* `obj[key]` on an object literal finds the literal's own properties first and then the
  properties every object inherits from `Object.prototype`.
* `undefined` used as an operand of `+` or `*` is converted to NaN.
* `techs` is an array, so it has at most `2 ^ 32 - 1` elements.

The development has four parts: the embedding; the algorithm in exact arithmetic, as the
specification words it; lemmas on rounding, on the totals of the loop and on the agreement
of the two; and the properties of the specification, each stated on `calculateEstimate`.
-/

namespace Estimator

/-! ## Numbers -/

/-- A JavaScript Number as it occurs in the estimator: NaN, or the finite non-negative
binary64 value `mant / 2 ^ scale`. -/
inductive JsNum where
  | nan : JsNum
  | fin (mant : Nat) (scale : Nat) : JsNum
  deriving DecidableEq, Repr

namespace JsNum

/-- The Number with the integer value `n`. -/
def int (n : Nat) : JsNum := fin n 0

/-- The number of binary digits of `n`, by repeated halving (`fuel` bounds the number of
halvings and is `n` itself in `bitLength`). -/
def bitLengthAux : Nat → Nat → Nat
  | 0, _ => 0
  | fuel + 1, n => if n = 0 then 0 else bitLengthAux fuel (n / 2) + 1

/-- The number of binary digits of `n`: `0` for `0`, else `floor (log2 n) + 1`. -/
def bitLength (n : Nat) : Nat := bitLengthAux n n

/-- Round the natural number `m` to 53 significant bits, to nearest with ties to even:
with `s` the number of bits of `m` beyond 53, the low `s` bits are dropped and the remaining
significand is incremented when the dropped part is more than half a unit in the last
place, or exactly half with an odd significand. -/
def roundSignificand (m : Nat) : Nat :=
  let s := bitLength m - 53
  let q := m / 2 ^ s
  let r := m % 2 ^ s
  let up : Bool := decide (2 ^ s < 2 * r) || (decide (2 * r = 2 ^ s) && decide (q % 2 = 1))
  (if up then q + 1 else q) * 2 ^ s

/-- Round the exact value `m / 2 ^ k` to the nearest binary64 value, ties to even. The
exponent range is not modelled: every magnitude the estimator reaches for an array (fewer
than `2 ^ 32` keys) lies between 1 and `2 ^ 60`, far from overflow and underflow. -/
def roundBinary64 (m k : Nat) : JsNum := fin (roundSignificand m) k

/-- The `+` of two Numbers: NaN when an operand is NaN, else the rounded exact sum. -/
def add : JsNum → JsNum → JsNum
  | fin a j, fin b k => roundBinary64 (a * 2 ^ k + b * 2 ^ j) (j + k)
  | _, _ => nan

/-- The `*` of two Numbers: NaN when an operand is NaN, else the rounded exact product. -/
def mul : JsNum → JsNum → JsNum
  | fin a j, fin b k => roundBinary64 (a * b) (j + k)
  | _, _ => nan

/-- The function `Math.round`: NaN for NaN, else `floor (x + 1/2)`, the nearest integer
with ties towards positive infinity. -/
def mathRound : JsNum → JsNum
  | fin m k => fin ((2 * m + 2 ^ k) / 2 ^ (k + 1)) 0
  | nan => nan

/-- The comparison `x <= y`, false when an operand is NaN. -/
def le : JsNum → JsNum → Bool
  | fin a j, fin b k => decide (a * 2 ^ k ≤ b * 2 ^ j)
  | _, _ => false

/-- The literal `1.0`. -/
def lit_1_0 : JsNum := fin 1 0
/-- The literal `1.5`. -/
def lit_1_5 : JsNum := fin 3 1
/-- The literal `2.2`, the binary64 value `0x400199999999999A`. -/
def lit_2_2 : JsNum := fin 2476979795053773 50
/-- The literal `0.9`, the binary64 value `0x3FECCCCCCCCCCCCD`. -/
def lit_0_9 : JsNum := fin 8106479329266893 53
/-- The literal `1.2`, the binary64 value `0x3FF3333333333333`. -/
def lit_1_2 : JsNum := fin 5404319552844595 52

end JsNum

/-! ## Property lookup -/

/-- The names of the properties every ordinary object inherits from `Object.prototype`
(ECMAScript 20.1.3 and B.2.2). -/
def objectPrototypeKeys : List String :=
  ["constructor", "hasOwnProperty", "isPrototypeOf", "propertyIsEnumerable",
   "toLocaleString", "toString", "valueOf", "__proto__",
   "__defineGetter__", "__defineSetter__", "__lookupGetter__", "__lookupSetter__"]

/-- The outcome of `obj[key]` on an object literal whose property values have type `α`:
an own property, a value inherited from `Object.prototype` (a built-in function, or
`Object.prototype` itself for `__proto__`), or `undefined`. -/
inductive Lookup (α : Type) where
  | own (v : α) : Lookup α
  | inherited : Lookup α
  | undefined : Lookup α
  deriving DecidableEq, Repr

/-- The expression `obj[key]`, for an object literal with the own properties `obj`. -/
def getProperty {α : Type} (obj : List (String × α)) (key : String) : Lookup α :=
  match obj.lookup key with
  | some v => Lookup.own v
  | none => if objectPrototypeKeys.contains key then Lookup.inherited else Lookup.undefined

namespace Lookup

/-- Truthiness, as tested by `if (x)` and `x ? a : b`: objects and functions are truthy,
`undefined` is falsy. -/
def truthy {α : Type} : Lookup α → Bool
  | undefined => false
  | _ => true

/-- A numeric field read off a truthy lookup result and used as an arithmetic operand:
the field of an own entry; for an inherited value the field is `undefined`, which
converts to NaN. -/
def num {α : Type} (field : α → JsNum) : Lookup α → JsNum
  | own v => field v
  | _ => JsNum.nan

end Lookup

/-! ## PRICING_CONFIG -/

/-- An entry of `PRICING_CONFIG.techs` or `PRICING_CONFIG.platforms`. -/
structure Item where
  label : String
  duration : Nat
  cost : Nat
  deriving DecidableEq, Repr

/-- An entry of `PRICING_CONFIG.complexity`. -/
structure Tier where
  label : String
  multiplier : JsNum
  deriving DecidableEq, Repr

/-- The shape of `PRICING_CONFIG`. -/
structure PricingConfig where
  baseDuration : Nat
  baseCost : Nat
  techs : List (String × Item)
  platforms : List (String × Item)
  complexity : List (String × Tier)
  rangeMin : JsNum
  rangeMax : JsNum

/-- The constant `PRICING_CONFIG`. -/
def PRICING_CONFIG : PricingConfig where
  baseDuration := 4
  baseCost := 3000000
  techs :=
    [("cv_detection", ⟨"CV — 객체 감지", 3, 2500000⟩),
     ("cv_classification", ⟨"CV — 분류/인식", 2, 1800000⟩),
     ("sensor_integration", ⟨"센서 데이터 통합", 2, 1200000⟩),
     ("edge_inference", ⟨"엣지 AI 최적화", 3, 2000000⟩)]
  platforms := [("rpi", ⟨"Raspberry Pi", 1, 500000⟩)]
  complexity :=
    [("simple", ⟨"Simple", JsNum.lit_1_0⟩),
     ("standard", ⟨"Standard", JsNum.lit_1_5⟩),
     ("complex", ⟨"Complex", JsNum.lit_2_2⟩)]
  rangeMin := JsNum.lit_0_9
  rangeMax := JsNum.lit_1_2

/-! ## calculateEstimate -/

/-- The argument of `calculateEstimate`. -/
structure Selections where
  techs : List String
  platform : String
  complexity : String
  deriving DecidableEq, Repr

/-- The object returned by `calculateEstimate`. -/
structure Estimate where
  durationBase : JsNum
  durationMin : JsNum
  durationMax : JsNum
  costBase : JsNum
  costMin : JsNum
  costMax : JsNum
  deriving DecidableEq, Repr

/-- The running pair `(totalDuration, totalCost)`. -/
abbrev Totals := JsNum × JsNum

/-- The guarded update `if (item) { totalDuration += item.duration; totalCost += item.cost }`
for an `item` looked up in `techs` or `platforms`. -/
def addItem (t : Totals) (item : Lookup Item) : Totals :=
  if item.truthy then
    (t.1.add (item.num fun i => JsNum.int i.duration),
     t.2.add (item.num fun i => JsNum.int i.cost))
  else t

/-- The body of the `techs.forEach` callback. -/
def addTech (t : Totals) (key : String) : Totals :=
  addItem t (getProperty PRICING_CONFIG.techs key)

/-- The totals after the `techs.forEach` loop. -/
def techTotals (techs : List String) : Totals :=
  techs.foldl addTech (JsNum.int PRICING_CONFIG.baseDuration, JsNum.int PRICING_CONFIG.baseCost)

/-- The totals after the platform lookup, before the multiplier. -/
def totals (s : Selections) : Totals :=
  addItem (techTotals s.techs) (getProperty PRICING_CONFIG.platforms s.platform)

/-- The expression `complexityConfig ? complexityConfig.multiplier : 1.5`, as the operand
of the following multiplications. -/
def multiplierOf (complexity : String) : JsNum :=
  let complexityConfig := getProperty PRICING_CONFIG.complexity complexity
  if complexityConfig.truthy then complexityConfig.num Tier.multiplier else JsNum.lit_1_5

/-- The returned object, from the totals and the multiplier. -/
def estimateOf (t : Totals) (multiplier : JsNum) : Estimate :=
  let rawDuration := t.1.mul multiplier
  let rawCost := t.2.mul multiplier
  { durationBase := rawDuration.mathRound
    durationMin := (rawDuration.mul PRICING_CONFIG.rangeMin).mathRound
    durationMax := (rawDuration.mul PRICING_CONFIG.rangeMax).mathRound
    costBase := rawCost.mathRound
    costMin := (rawCost.mul PRICING_CONFIG.rangeMin).mathRound
    costMax := (rawCost.mul PRICING_CONFIG.rangeMax).mathRound }

/-- The function `calculateEstimate(selections)`. -/
def calculateEstimate (s : Selections) : Estimate :=
  estimateOf (totals s) (multiplierOf s.complexity)

/-! ## Closed forms used to state the properties -/

/-- The duration weight of a key: the `duration` of the own entry of `PRICING_CONFIG.techs`
with that key, and `0` for a key that is no catalog option. -/
def optionDuration (key : String) : Nat :=
  match PRICING_CONFIG.techs.lookup key with
  | some i => i.duration
  | none => 0

/-- The cost weight of a key: the `cost` of the own entry of `PRICING_CONFIG.techs` with
that key, and `0` for a key that is no catalog option. -/
def optionCost (key : String) : Nat :=
  match PRICING_CONFIG.techs.lookup key with
  | some i => i.cost
  | none => 0

/-- The sum of the duration weights of a list of keys. -/
def sumDuration (techs : List String) : Nat := (techs.map optionDuration).sum

/-- The sum of the cost weights of a list of keys. -/
def sumCost (techs : List String) : Nat := (techs.map optionCost).sum

/-- Whether some key of the list names a property inherited from `Object.prototype`. -/
def hasInheritedKey (techs : List String) : Bool :=
  techs.any fun k => objectPrototypeKeys.contains k

/-- The largest number of elements of a JavaScript array is `2 ^ 32 - 1`. -/
def maxArrayLength : Nat := 2 ^ 32 - 1

/-- The estimate in which all six fields are NaN. -/
def Estimate.allNaN : Estimate :=
  ⟨JsNum.nan, JsNum.nan, JsNum.nan, JsNum.nan, JsNum.nan, JsNum.nan⟩

/-- The estimate with the six given integer fields. -/
def Estimate.ofNats (dBase dMin dMax cBase cMin cMax : Nat) : Estimate :=
  ⟨JsNum.int dBase, JsNum.int dMin, JsNum.int dMax, JsNum.int cBase, JsNum.int cMin,
    JsNum.int cMax⟩

/-- The invariant `durationMin <= durationBase <= durationMax` and
`costMin <= costBase <= costMax`, with the comparison of JavaScript. -/
def Estimate.ordered (e : Estimate) : Bool :=
  e.durationMin.le e.durationBase && e.durationBase.le e.durationMax &&
    e.costMin.le e.costBase && e.costBase.le e.costMax

/-! ## The algorithm as the specification words it -/

/-- Round to nearest, ties rounded up, of the non-negative rational `p / q`:
`floor (p / q + 1 / 2)`. -/
def roundHalfUp (p q : Nat) : Nat := (2 * p + q) / (2 * q)

/-- The multiplier of a complexity key as an exact fraction `(numerator, denominator)`:
1.0 for `simple`, 1.5 for `standard`, 2.2 for `complex`, and 1.5 for a key that is no tier. -/
def specMultiplier (complexity : String) : Nat × Nat :=
  if complexity = "simple" then (1, 1)
  else if complexity = "complex" then (11, 5)
  else (3, 2)

/-- The duration of the platform key when it is in the catalog, else `0`. -/
def specPlatformDuration (platform : String) : Nat :=
  match PRICING_CONFIG.platforms.lookup platform with
  | some i => i.duration
  | none => 0

/-- The cost of the platform key when it is in the catalog, else `0`. -/
def specPlatformCost (platform : String) : Nat :=
  match PRICING_CONFIG.platforms.lookup platform with
  | some i => i.cost
  | none => 0

/-- The six values of the specified algorithm in exact arithmetic: the totals `T_d` and
`T_c` over the catalog options and the catalog platform, the multiplier `m`, and each
value rounded once from its own exact product with the range factors 0.9 and 1.2. -/
def specEstimate (s : Selections) : Estimate :=
  let td := PRICING_CONFIG.baseDuration + sumDuration s.techs + specPlatformDuration s.platform
  let tc := PRICING_CONFIG.baseCost + sumCost s.techs + specPlatformCost s.platform
  let m := specMultiplier s.complexity
  Estimate.ofNats
    (roundHalfUp (td * m.1) m.2)
    (roundHalfUp (td * m.1 * 9) (m.2 * 10))
    (roundHalfUp (td * m.1 * 6) (m.2 * 5))
    (roundHalfUp (tc * m.1) m.2)
    (roundHalfUp (tc * m.1 * 9) (m.2 * 10))
    (roundHalfUp (tc * m.1 * 6) (m.2 * 5))

/-! ## Division, subtraction and comparison -/

namespace JsNum

/-- The rational `n / d`, `d` not zero, rounded to the nearest binary64 value, ties to even:
the quotient is computed with at least three bits beyond the 53 of the significand, a last
bit records whether the division left a remainder, and the result is rounded once. -/
def roundRatio (n d : Nat) : JsNum :=
  let e := (56 + bitLength d) - bitLength n
  let q := n * 2 ^ e / d
  let sticky := if n * 2 ^ e % d = 0 then 0 else 1
  fin (roundSignificand (2 * q + sticky)) (e + 1)

/-- The `/` of two Numbers: NaN when an operand is NaN, else the rounded exact quotient.
A zero divisor gives NaN for `0 / 0` and Infinity otherwise; Infinity is outside this
embedding, and the estimator divides by 10,000 and by a positive duration only. -/
def div : JsNum → JsNum → JsNum
  | fin a j, fin b k => if b = 0 then nan else roundRatio (a * 2 ^ k) (b * 2 ^ j)
  | _, _ => nan

/-- The `-` of two Numbers `a - b` with `b` at most `a`: NaN when an operand is NaN, else
the rounded exact difference. Negative Numbers are outside this embedding; the estimator
subtracts a start time from a later time and a fraction of 1 from 1. -/
def sub : JsNum → JsNum → JsNum
  | fin a j, fin b k => roundBinary64 (a * 2 ^ k - b * 2 ^ j) (j + k)
  | _, _ => nan

/-- The comparison `x < y`, false when an operand is NaN. -/
def lt : JsNum → JsNum → Bool
  | fin a j, fin b k => decide (a * 2 ^ k < b * 2 ^ j)
  | _, _ => false

/-- The function `Math.min` of two Numbers: NaN when an operand is NaN. -/
def min : JsNum → JsNum → JsNum
  | fin a j, fin b k => if a * 2 ^ k ≤ b * 2 ^ j then fin a j else fin b k
  | _, _ => nan

/-- Whether a Number is falsy: zero and NaN are. -/
def falsy : JsNum → Bool
  | fin m _ => decide (m = 0)
  | nan => true

/-- Whether a Number is an integer; NaN is not. -/
def isInteger : JsNum → Bool
  | fin m k => decide (m % 2 ^ k = 0)
  | nan => false

end JsNum

/-! ## formatMan -/

/-- The character of a decimal digit. -/
def digitChar (d : Nat) : Char := Char.ofNat (48 + d % 10)

/-- The decimal digits of `n`, most significant first (`fuel` bounds their number). -/
def decimalAux : Nat → Nat → List Char → List Char
  | 0, _, acc => acc
  | fuel + 1, n, acc =>
    if n < 10 then digitChar n :: acc else decimalAux fuel (n / 10) (digitChar n :: acc)

/-- The decimal representation of a natural number. -/
def decimal (n : Nat) : String := String.mk (decimalAux (n + 1) n [])

/-- The three decimal digits of a number below 1000, with leading zeros. -/
def threeDigits (n : Nat) : String :=
  String.mk [digitChar (n / 100), digitChar (n / 10), digitChar n]

/-- The digits of `n` in groups of three from the right, separated by commas (`fuel`
bounds the number of groups). -/
def groupThousandsAux : Nat → Nat → String
  | 0, n => decimal n
  | fuel + 1, n =>
    if n < 1000 then decimal n
    else groupThousandsAux fuel (n / 1000) ++ "," ++ threeDigits (n % 1000)

/-- The decimal representation of `n` with a comma between every group of three digits
counted from the right. -/
def groupThousands (n : Nat) : String := groupThousandsAux n n

/-- The method `toLocaleString('ko-KR')` on a Number that `Math.round` returned: `NaN` for
NaN, and for an integer its digits in the ko-KR pattern `#,##0`, groups of three separated
by commas. Digits after the decimal point are not modelled; `Math.round` leaves none. -/
def toLocaleStringKoKR : JsNum → String
  | JsNum.nan => "NaN"
  | JsNum.fin m k => groupThousands (m / 2 ^ k)

/-- The function `formatMan(amount)`. -/
def formatMan (amount : JsNum) : String :=
  let man := (amount.div (JsNum.int 10000)).mathRound
  toLocaleStringKoKR man ++ "만"

/-! ## Selections with missing fields -/

/-- A selection object as a caller may pass it: each of the three fields present or
missing (`undefined`). -/
structure RawSelections where
  techs : Option (List String)
  platform : Option String
  complexity : Option String
  deriving DecidableEq, Repr

/-- The outcome of a call of `calculateEstimate`: the returned object, or the TypeError
that the call throws. -/
inductive CallResult where
  | returned (e : Estimate) : CallResult
  | typeError : CallResult
  deriving DecidableEq, Repr

/-- The property key of a field used in `obj[field]`: a missing field is the key
`undefined`. -/
def propertyKey : Option String → String
  | some k => k
  | none => "undefined"

/-- The function `calculateEstimate(selections)` on a selection object with possibly
missing fields: `techs.forEach` throws a TypeError when `techs` is `undefined`; a missing
`platform` or `complexity` is looked up as the key `undefined`. -/
def calculateEstimateRaw (s : RawSelections) : CallResult :=
  match s.techs with
  | none => CallResult.typeError
  | some techs =>
    CallResult.returned
      (calculateEstimate ⟨techs, propertyKey s.platform, propertyKey s.complexity⟩)

/-- Whether all six fields of an estimate are integers. -/
def Estimate.integral (e : Estimate) : Bool :=
  e.durationBase.isInteger && e.durationMin.isInteger && e.durationMax.isInteger &&
    e.costBase.isInteger && e.costMin.isInteger && e.costMax.isInteger

/-! ## The reimplementation that rounds the range from the rounded point -/

/-- The estimate of a reimplementation that derives the range from the rounded point
estimate: `min = round(point * 0.9)` and `max = round(point * 1.2)` with `point` the
already rounded `durationBase` or `costBase`. -/
def estimateFromRoundedPoint (s : Selections) : Estimate :=
  let e := calculateEstimate s
  { durationBase := e.durationBase
    durationMin := (e.durationBase.mul PRICING_CONFIG.rangeMin).mathRound
    durationMax := (e.durationBase.mul PRICING_CONFIG.rangeMax).mathRound
    costBase := e.costBase
    costMin := (e.costBase.mul PRICING_CONFIG.rangeMin).mathRound
    costMax := (e.costBase.mul PRICING_CONFIG.rangeMax).mathRound }

/-! ## The form -/

/-- A checked `input` element of the form, with its `value`. -/
structure Input where
  value : String
  deriving DecidableEq, Repr

/-- The state of the form that `getSelections` reads: the checked inputs named `techs`, in
document order (`querySelectorAll`), and the first checked input named `complexity`, if
there is one (`querySelector`). -/
structure FormState where
  checkedTechs : List Input
  checkedComplexity : Option Input
  deriving DecidableEq, Repr

/-- The function `getSelections(form)`. -/
def getSelections (form : FormState) : Selections :=
  { techs := form.checkedTechs.map fun el => el.value
    platform := "rpi"
    complexity :=
      match form.checkedComplexity with
      | some complexityInput => complexityInput.value
      | none => "standard" }

/-! ## Text -/

/-- A piece of a string built by `+`: a string, or a Number that `+` or `String` converts
to a string. -/
inductive TextPiece where
  | str (s : String) : TextPiece
  | num (x : JsNum) : TextPiece
  deriving DecidableEq, Repr

/-- A string as the concatenation of its pieces, in order. -/
abbrev Text := List TextPiece

/-- The formatter `v => String(v)`. -/
def formatString (v : JsNum) : Text := [TextPiece.num v]

/-- The formatter `formatMan`, as a text. -/
def formatManText (v : JsNum) : Text := [TextPiece.str (formatMan v)]

/-! ## animateRangeDisplay -/

/-- The arguments `min, max, formatter, duration` of `animateRangeDisplay`. -/
structure CountUp where
  min : JsNum
  max : JsNum
  formatter : JsNum → Text
  duration : JsNum

/-- The state of one animation: the closure variable `startTime` (`none` is `null`), the
`textContent` of the element, and whether a frame is requested. -/
structure CountUpState where
  startTime : Option JsNum
  text : Text
  frameRequested : Bool

/-- The state after the call of `animateRangeDisplay`: `startTime` is `null`, the element
keeps its text, and the first frame is requested. -/
def animateRangeDisplay (text : Text) : CountUpState :=
  { startTime := none, text := text, frameRequested := true }

/-- The statement `if (!startTime) startTime = now`: `null`, zero and NaN are falsy. -/
def startTimeAt (startTime : Option JsNum) (now : JsNum) : JsNum :=
  match startTime with
  | none => now
  | some t => if t.falsy then now else t

/-- The expression `Math.min((now - startTime) / duration, 1)`. -/
def progressAt (a : CountUp) (startTime now : JsNum) : JsNum :=
  JsNum.min ((now.sub startTime).div a.duration) (JsNum.int 1)

/-- The callback `tick(now)`. The function `pow3` is `x => Math.pow(x, 3)` of the host,
which the language leaves implementation-approximated. -/
def tick (pow3 : JsNum → JsNum) (a : CountUp) (st : CountUpState) (now : JsNum) :
    CountUpState :=
  let startTime := startTimeAt st.startTime now
  let progress := progressAt a startTime now
  let eased := (JsNum.int 1).sub (pow3 ((JsNum.int 1).sub progress))
  if progress.lt (JsNum.int 1) then
    { startTime := some startTime
      text := a.formatter (a.max.mul eased).mathRound
      frameRequested := true }
  else
    { startTime := some startTime
      text := a.formatter a.min ++ [TextPiece.str "~"] ++ a.formatter a.max
      frameRequested := false }

/-- The host running frames with the given timestamps: `tick` is called once per frame
while a frame is requested, and not at all afterwards. -/
def runFrames (pow3 : JsNum → JsNum) (a : CountUp) : CountUpState → List JsNum → CountUpState
  | st, [] => st
  | st, now :: rest =>
    if st.frameRequested then runFrames pow3 a (tick pow3 a st now) rest else st

/-! ## The page and renderResult -/

/-- An item of the summary list: the `li` created for a truthy lookup of a tech key, of
the platform key or of the complexity key; its text is built from the `label` (and the
`multiplier`) of what the lookup found. -/
inductive SummaryItem where
  | tech (found : Lookup Item) : SummaryItem
  | platform (found : Lookup Item) : SummaryItem
  | complexity (found : Lookup Tier) : SummaryItem
  deriving DecidableEq, Repr

/-- The state of an element that `renderResult` touches: its `hidden` flag, its
`textContent`, and its child items. -/
structure Element where
  hidden : Bool
  text : Text
  items : List SummaryItem
  deriving DecidableEq, Repr

/-- The two elements that `renderResult` animates. -/
inductive Display where
  | duration : Display
  | cost : Display
  deriving DecidableEq, Repr

/-- A started animation: the element it was given (which may be absent, `null`), the
range `min`, `max` and the duration; the formatter is `String` for the duration display
and `formatMan` for the cost display. -/
structure StartedAnimation where
  target : Display
  min : JsNum
  max : JsNum
  duration : JsNum
  deriving DecidableEq, Repr

/-- The page as `renderResult` sees it: each of the seven elements it looks up by id is
present or absent, and the animations started so far. -/
structure Page where
  resultPlaceholder : Option Element
  resultCard : Option Element
  durationDisplay : Option Element
  durationRange : Option Element
  costDisplay : Option Element
  costRange : Option Element
  summaryList : Option Element
  animations : List StartedAnimation
  deriving DecidableEq, Repr

/-- How a call ends: normally, or with a TypeError thrown at a property access on `null`;
either way with the page as the statements executed so far left it. -/
inductive Completion where
  | normal (page : Page) : Completion
  | threw (page : Page) : Completion
  deriving DecidableEq, Repr

/-- Run the next statement when the previous ones completed normally. -/
def Completion.andThen (c : Completion) (next : Page → Completion) : Completion :=
  match c with
  | Completion.normal page => next page
  | Completion.threw page => Completion.threw page

/-- The text `a + '~' + b` of two converted values. -/
def rangeText (formatter : JsNum → Text) (min max : JsNum) : Text :=
  formatter min ++ [TextPiece.str "~"] ++ formatter max

/-- The assignment `durationEl.textContent = ...`, a TypeError when the element is absent. -/
def setDurationDisplay (t : Text) (page : Page) : Completion :=
  match page.durationDisplay with
  | some el => Completion.normal { page with durationDisplay := some { el with text := t } }
  | none => Completion.threw page

/-- The assignment `durationRange.textContent = ...`. -/
def setDurationRange (t : Text) (page : Page) : Completion :=
  match page.durationRange with
  | some el => Completion.normal { page with durationRange := some { el with text := t } }
  | none => Completion.threw page

/-- The assignment `costEl.textContent = ...`. -/
def setCostDisplay (t : Text) (page : Page) : Completion :=
  match page.costDisplay with
  | some el => Completion.normal { page with costDisplay := some { el with text := t } }
  | none => Completion.threw page

/-- The assignment `costRange.textContent = ...`. -/
def setCostRange (t : Text) (page : Page) : Completion :=
  match page.costRange with
  | some el => Completion.normal { page with costRange := some { el with text := t } }
  | none => Completion.threw page

/-- The statements `summaryList.innerHTML = ''; summaryList.appendChild(fragment)`. -/
def setSummaryList (items : List SummaryItem) (page : Page) : Completion :=
  match page.summaryList with
  | some el =>
    Completion.normal { page with summaryList := some { el with text := [], items := items } }
  | none => Completion.threw page

/-- The call `animateRangeDisplay(element, min, max, formatter, 900)`: it requests the
first frame and touches no element yet, also when `element` is `null`. -/
def startAnimation (target : Display) (min max : JsNum) (page : Page) : Completion :=
  Completion.normal
    { page with animations := page.animations ++ [⟨target, min, max, JsNum.int 900⟩] }

/-- The items of the fragment: one per tech key whose lookup is truthy, then the platform
and the complexity when their lookups are truthy. -/
def summaryItems (selections : Selections) : List SummaryItem :=
  let techs := selections.techs.filterMap fun key =>
    let tech := getProperty PRICING_CONFIG.techs key
    if tech.truthy then some (SummaryItem.tech tech) else none
  let platformConfig := getProperty PRICING_CONFIG.platforms selections.platform
  let complexityConfig := getProperty PRICING_CONFIG.complexity selections.complexity
  techs ++ (if platformConfig.truthy then [SummaryItem.platform platformConfig] else []) ++
    (if complexityConfig.truthy then [SummaryItem.complexity complexityConfig] else [])

/-- The function `renderResult(estimate, selections)`. -/
def renderResult (estimate : Estimate) (selections : Selections) (page : Page) : Completion :=
  match page.resultCard, page.resultPlaceholder with
  | some card, some placeholder =>
    let isFirstRender := card.hidden
    let shown : Page :=
      { page with
        resultPlaceholder := some { placeholder with hidden := true }
        resultCard := some { card with hidden := false } }
    ((((if isFirstRender then
          startAnimation Display.duration estimate.durationMin estimate.durationMax shown
        else
          setDurationDisplay
            (rangeText formatString estimate.durationMin estimate.durationMax) shown).andThen
      (setDurationRange
        ([TextPiece.str "최소 ", TextPiece.num estimate.durationMin, TextPiece.str "주 ~ 최대 ",
          TextPiece.num estimate.durationMax, TextPiece.str "주"]))).andThen
      (fun page =>
        if isFirstRender then
          startAnimation Display.cost estimate.costMin estimate.costMax page
        else
          setCostDisplay (rangeText formatManText estimate.costMin estimate.costMax) page)).andThen
      (setCostRange
        ([TextPiece.str "최소 ", TextPiece.str (formatMan estimate.costMin),
          TextPiece.str "원 ~ 최대 ", TextPiece.str (formatMan estimate.costMax),
          TextPiece.str "원"]))).andThen
      (setSummaryList (summaryItems selections))
  | _, _ => Completion.normal page

/-- The function `updateResult(form)`. -/
def updateResult (form : FormState) (page : Page) : Completion :=
  let selections := getSelections form
  let estimate := calculateEstimate selections
  renderResult estimate selections page

/-- The document as `init` sees it: the form `estimatorForm`, present or absent, the page,
and the number of `change` listeners registered on the form. -/
structure Document where
  estimatorForm : Option FormState
  page : Page
  changeListeners : Nat
  deriving DecidableEq, Repr

/-- The function `init()`: the document it leaves, and whether it threw. -/
def init (doc : Document) : Document × Bool :=
  match doc.estimatorForm with
  | none => (doc, false)
  | some form =>
    match updateResult form doc.page with
    | Completion.normal page =>
      ({ doc with page := page, changeListeners := doc.changeListeners + 1 }, false)
    | Completion.threw page =>
      ({ doc with page := page, changeListeners := doc.changeListeners + 1 }, true)

/-- Whether each of the six fields of `e₁` is `<=` the same field of `e₂`, with the
comparison of JavaScript. -/
def Estimate.allLe (e₁ e₂ : Estimate) : Bool :=
  e₁.durationBase.le e₂.durationBase && e₁.durationMin.le e₂.durationMin &&
    e₁.durationMax.le e₂.durationMax && e₁.costBase.le e₂.costBase &&
    e₁.costMin.le e₂.costMin && e₁.costMax.le e₂.costMax

/-- A page with every element present except `durationRange`, before the first render:
the placeholder is shown, the card is hidden, and every text is empty. -/
def pageWithoutDurationRange : Page :=
  { resultPlaceholder := some ⟨false, [], []⟩
    resultCard := some ⟨true, [], []⟩
    durationDisplay := some ⟨false, [], []⟩
    durationRange := none
    costDisplay := some ⟨false, [], []⟩
    costRange := some ⟨false, [], []⟩
    summaryList := some ⟨false, [], []⟩
    animations := [] }

/-- A page without the result card: only the placeholder and the summary list exist. -/
def pageWithoutCard : Page :=
  { resultPlaceholder := some ⟨false, [], []⟩
    resultCard := none
    durationDisplay := none
    durationRange := none
    costDisplay := none
    costRange := none
    summaryList := some ⟨false, [], []⟩
    animations := [] }

/-! ## The literals -/

/-- The literals `2.2`, `0.9` and `1.2` are the binary64 values nearest to 11/5, 9/10 and
6/5: each is `significand / 2 ^ scale` with a significand of 53 bits, and differs from the
fraction by 0.4, 0.2 and 0.2 units in the last place. -/
theorem literal_values :
    (JsNum.lit_2_2 = JsNum.fin 2476979795053773 50 ∧
      2 ^ 52 ≤ 2 * 2476979795053773 ∧ 2 * 2476979795053773 < 2 ^ 53 ∧
      5 * 2476979795053773 = 11 * 2 ^ 50 + 1) ∧
    (JsNum.lit_0_9 = JsNum.fin 8106479329266893 53 ∧
      2 ^ 52 ≤ 8106479329266893 ∧ 8106479329266893 < 2 ^ 53 ∧
      10 * 8106479329266893 = 9 * 2 ^ 53 + 2) ∧
    (JsNum.lit_1_2 = JsNum.fin 5404319552844595 52 ∧
      2 ^ 52 ≤ 5404319552844595 ∧ 5404319552844595 < 2 ^ 53 ∧
      5 * 5404319552844595 + 1 = 6 * 2 ^ 52) := by
  decide

/-! ## Exactness of the integer additions -/

namespace JsNum

/-- Halving at most `fuel` times counts at most `j` digits of a number below `2 ^ j`. -/
theorem bitLengthAux_le (fuel : Nat) : ∀ n j : Nat, n < 2 ^ j → bitLengthAux fuel n ≤ j := by
  induction fuel with
  | zero => intro n j _; simp [bitLengthAux]
  | succ f ih =>
    intro n j h
    unfold bitLengthAux
    split
    · exact Nat.zero_le _
    · rename_i hn
      cases j with
      | zero => simp at h; exact absurd h hn
      | succ j =>
        have h2 : n / 2 < 2 ^ j := by
          rw [Nat.div_lt_iff_lt_mul (by decide)]
          rw [Nat.pow_succ] at h
          exact h
        exact Nat.succ_le_succ (ih _ _ h2)

/-- The bit length is a lower bound of every `j` with `n < 2 ^ j`. -/
theorem bitLength_le {n j : Nat} (h : n < 2 ^ j) : bitLength n ≤ j :=
  bitLengthAux_le n n j h

theorem lt_two_pow_bitLengthAux (fuel : Nat) :
    ∀ n : Nat, n ≤ fuel → n < 2 ^ bitLengthAux fuel n := by
  induction fuel with
  | zero => intro n h; simp [bitLengthAux]; omega
  | succ f ih =>
    intro n h
    unfold bitLengthAux
    split
    · rename_i hn; rw [hn]; exact Nat.pow_pos (by decide)
    · have h2 := ih (n / 2) (by omega)
      rw [Nat.pow_succ]
      omega

/-- The fuel of `bitLength` suffices: `n` has at most `bitLength n` binary digits, so
`bitLength n` is the least `j` with `n < 2 ^ j`. -/
theorem lt_two_pow_bitLength (n : Nat) : n < 2 ^ bitLength n :=
  lt_two_pow_bitLengthAux n n (Nat.le_refl n)

/-- A value with at most 53 significant bits is not changed by rounding. -/
theorem roundSignificand_of_lt {m : Nat} (h : m < 2 ^ 53) : roundSignificand m = m := by
  have hs : bitLength m - 53 = 0 := Nat.sub_eq_zero_of_le (bitLength_le h)
  simp [roundSignificand, hs, Nat.mod_one]

/-- A multiple of 32 below `2 ^ 58` is not changed by rounding. -/
theorem roundSignificand_of_dvd {m : Nat} (h : m < 2 ^ 58) (hd : 32 ∣ m) :
    roundSignificand m = m := by
  have hs : bitLength m - 53 ≤ 5 := by
    have := bitLength_le h
    omega
  have hdvd : 2 ^ (bitLength m - 53) ∣ m :=
    Nat.dvd_trans (Nat.pow_dvd_pow 2 hs) hd
  have hr : m % 2 ^ (bitLength m - 53) = 0 := Nat.mod_eq_zero_of_dvd hdvd
  have hpos : 0 < 2 ^ (bitLength m - 53) := Nat.pow_pos (by decide)
  have hne : (0 : Nat) ≠ 2 ^ (bitLength m - 53) := Nat.ne_of_lt hpos
  simp [roundSignificand, hr, hne, Nat.div_mul_cancel hdvd]

/-- The shape of a rounding: `m = A + r` with `A` a multiple of the unit `P = 2 ^ s` and
`r < P`; the result is `A` when `r` is at most half a unit and `A + P` when it is at least
half a unit; and the unit is `1` or at most `m / 2 ^ 52`. -/
theorem roundSignificand_cases (m : Nat) :
    ∃ P A r, m = A + r ∧ r < P ∧ P ∣ A ∧ P = 2 ^ (bitLength m - 53) ∧
      (P = 1 ∨ 2 ^ 52 * P ≤ m) ∧
      (roundSignificand m = A ∧ 2 * r ≤ P ∨ roundSignificand m = A + P ∧ P ≤ 2 * r) := by
  have hpos : 0 < 2 ^ (bitLength m - 53) := Nat.pow_pos (by decide)
  refine ⟨2 ^ (bitLength m - 53), m / 2 ^ (bitLength m - 53) * 2 ^ (bitLength m - 53),
    m % 2 ^ (bitLength m - 53), ?_, Nat.mod_lt _ hpos, Nat.dvd_mul_left _ _, rfl, ?_, ?_⟩
  · rw [Nat.mul_comm]; exact (Nat.div_add_mod m _).symm
  · by_cases hs : bitLength m - 53 = 0
    · left; rw [hs]; rfl
    · right
      have hlow : ¬ m < 2 ^ (52 + (bitLength m - 53)) := by
        intro h
        have := bitLength_le h
        omega
      rw [← Nat.pow_add]
      exact Nat.le_of_not_lt hlow
  · unfold roundSignificand
    simp only []
    split
    · rename_i hup
      right
      refine ⟨Nat.succ_mul _ _, ?_⟩
      simp only [Bool.or_eq_true, Bool.and_eq_true, decide_eq_true_eq] at hup
      rcases hup with h | ⟨h, _⟩
      · exact Nat.le_of_lt h
      · exact Nat.le_of_eq h.symm
    · rename_i hup
      left
      refine ⟨rfl, ?_⟩
      simp only [Bool.or_eq_true, Bool.and_eq_true, decide_eq_true_eq, not_or] at hup
      exact Nat.le_of_not_lt hup.1

/-- The relative error of a rounding is at most `2 ^ -53`. -/
theorem roundSignificand_bounds (m : Nat) :
    2 ^ 53 * roundSignificand m ≤ (2 ^ 53 + 1) * m ∧
    (2 ^ 53 - 1) * m ≤ 2 ^ 53 * roundSignificand m := by
  obtain ⟨P, A, r, hm, hr, _, _, hP, hR⟩ := roundSignificand_cases m
  rcases hP with hP | hP <;> rcases hR with ⟨hR, h2⟩ | ⟨hR, h2⟩ <;> rw [hR] <;> omega

/-- A rounding does not cross a value of its own grid from above: a multiple `M` of
`2 ^ j` that is at most `m < 2 ^ (53 + j)` is at most the rounded `m`. -/
theorem le_roundSignificand {m M j : Nat} (hm : m < 2 ^ (53 + j)) (hM : 2 ^ j ∣ M)
    (hle : M ≤ m) : M ≤ roundSignificand m := by
  obtain ⟨P, A, r, hmA, hr, hPA, hPs, _, hR⟩ := roundSignificand_cases m
  have hs : bitLength m - 53 ≤ j := by
    have := bitLength_le hm
    omega
  have hPM : P ∣ M := hPs ▸ Nat.dvd_trans (Nat.pow_dvd_pow 2 hs) hM
  have hMA : M ≤ A := by
    obtain ⟨a, rfl⟩ := hPA
    obtain ⟨b, rfl⟩ := hPM
    have hb : b < a + 1 := by
      have : P * b < P * (a + 1) := by rw [Nat.mul_succ]; omega
      exact Nat.lt_of_mul_lt_mul_left this
    exact Nat.mul_le_mul_left P (Nat.lt_succ_iff.mp hb)
  rcases hR with ⟨hR, _⟩ | ⟨hR, _⟩ <;> rw [hR] <;> omega

/-- The bit length of a number in the binade of `2 ^ j`. -/
theorem bitLength_eq {m j : Nat} (h1 : 2 ^ j ≤ m) (h2 : m < 2 ^ (j + 1)) :
    bitLength m = j + 1 := by
  have hle := bitLength_le h2
  have hlt := lt_two_pow_bitLength m
  have hj : j < bitLength m := by
    by_contra hn
    have : 2 ^ bitLength m ≤ 2 ^ j := Nat.pow_le_pow_right (by decide) (Nat.le_of_not_lt hn)
    omega
  omega

/-- The shape of a rounding in a known binade: for `2 ^ (52 + j) ≤ m < 2 ^ (53 + j)` the
unit is `2 ^ j`. -/
theorem roundSignificand_cases_at {m j : Nat} (h1 : 2 ^ (52 + j) ≤ m)
    (h2 : m < 2 ^ (53 + j)) :
    ∃ a r, m = 2 ^ j * a + r ∧ r < 2 ^ j ∧
      (roundSignificand m = 2 ^ j * a ∧ 2 * r ≤ 2 ^ j ∨
        roundSignificand m = 2 ^ j * a + 2 ^ j ∧ 2 ^ j ≤ 2 * r) := by
  obtain ⟨P, A, r, hm, hr, ⟨a, ha⟩, hP, _, hR⟩ := roundSignificand_cases m
  have h3 : m < 2 ^ (52 + j + 1) := by
    have e : 52 + j + 1 = 53 + j := by omega
    rw [e]; exact h2
  have hb : bitLength m = 52 + j + 1 := bitLength_eq h1 h3
  have hPj : P = 2 ^ j := by rw [hP, hb]; congr 1; omega
  subst hPj
  subst ha
  exact ⟨a, r, hm, hr, hR⟩

theorem roundBinary64_of_lt {m : Nat} (k : Nat) (h : m < 2 ^ 53) :
    roundBinary64 m k = fin m k := by
  rw [roundBinary64, roundSignificand_of_lt h]

theorem roundBinary64_of_dvd {m : Nat} (k : Nat) (h : m < 2 ^ 58) (hd : 32 ∣ m) :
    roundBinary64 m k = fin m k := by
  rw [roundBinary64, roundSignificand_of_dvd h hd]

theorem add_int_of_lt {a b : Nat} (h : a + b < 2 ^ 53) :
    (int a).add (int b) = int (a + b) := by
  simp only [int, add, Nat.pow_zero, Nat.mul_one, Nat.add_zero]
  exact roundBinary64_of_lt 0 h

theorem add_int_of_dvd {a b : Nat} (h : a + b < 2 ^ 58) (hd : 32 ∣ a + b) :
    (int a).add (int b) = int (a + b) := by
  simp only [int, add, Nat.pow_zero, Nat.mul_one, Nat.add_zero]
  exact roundBinary64_of_dvd 0 h hd

end JsNum

/-! ## The totals in closed form -/

theorem JsNum.add_nan (x : JsNum) : x.add JsNum.nan = JsNum.nan := by
  cases x <;> rfl

theorem JsNum.nan_add (x : JsNum) : JsNum.nan.add x = JsNum.nan := rfl

/-- The own entries of `PRICING_CONFIG.techs`: the weights are small and the costs are
multiples of 100,000. -/
theorem lookup_techs_bounds {key : String} {i : Item}
    (h : PRICING_CONFIG.techs.lookup key = some i) :
    i.duration ≤ 3 ∧ i.cost ≤ 2500000 ∧ 100000 ∣ i.cost := by
  simp only [PRICING_CONFIG, List.lookup] at h
  repeat' split at h
  all_goals first
    | (cases h; done)
    | (cases h; decide)

/-- No catalog option is named like a property of `Object.prototype`. -/
theorem lookup_techs_not_inherited {key : String} {i : Item}
    (h : PRICING_CONFIG.techs.lookup key = some i) :
    objectPrototypeKeys.contains key = false := by
  simp only [PRICING_CONFIG, List.lookup] at h
  repeat' split at h
  all_goals first
    | (cases h; done)
    | (rename_i hk; have := eq_of_beq hk; subst this; decide)

theorem getProperty_own {α : Type} {obj : List (String × α)} {key : String} {v : α}
    (h : obj.lookup key = some v) : getProperty obj key = Lookup.own v := by
  simp only [getProperty, h]

theorem getProperty_inherited {α : Type} {obj : List (String × α)} {key : String}
    (h : obj.lookup key = none) (hk : objectPrototypeKeys.contains key = true) :
    getProperty obj key = Lookup.inherited := by
  simp only [getProperty, h, hk, if_true]

theorem getProperty_undefined {α : Type} {obj : List (String × α)} {key : String}
    (h : obj.lookup key = none) (hk : objectPrototypeKeys.contains key = false) :
    getProperty obj key = Lookup.undefined := by
  simp only [getProperty, h, hk, Bool.false_eq_true, if_false]

theorem addTech_own {key : String} {i : Item}
    (h : PRICING_CONFIG.techs.lookup key = some i) (t : Totals) :
    addTech t key = (t.1.add (JsNum.int i.duration), t.2.add (JsNum.int i.cost)) := by
  simp only [addTech, getProperty_own h, addItem, Lookup.truthy, Lookup.num, if_true]

theorem addTech_inherited {key : String}
    (h : PRICING_CONFIG.techs.lookup key = none)
    (hk : objectPrototypeKeys.contains key = true) (t : Totals) :
    addTech t key = (JsNum.nan, JsNum.nan) := by
  simp only [addTech, getProperty_inherited h hk, addItem, Lookup.truthy, Lookup.num, if_true,
    JsNum.add_nan]

theorem addTech_undefined {key : String}
    (h : PRICING_CONFIG.techs.lookup key = none)
    (hk : objectPrototypeKeys.contains key = false) (t : Totals) :
    addTech t key = t := by
  simp only [addTech, getProperty_undefined h hk, addItem, Lookup.truthy, Bool.false_eq_true,
    if_false]

theorem hasInheritedKey_cons (key : String) (rest : List String) :
    hasInheritedKey (key :: rest) = (objectPrototypeKeys.contains key || hasInheritedKey rest) := by
  simp only [hasInheritedKey, List.any_cons]

theorem sumDuration_cons (key : String) (rest : List String) :
    sumDuration (key :: rest) = optionDuration key + sumDuration rest := by
  simp only [sumDuration, List.map_cons, List.sum_cons]

theorem sumCost_cons (key : String) (rest : List String) :
    sumCost (key :: rest) = optionCost key + sumCost rest := by
  simp only [sumCost, List.map_cons, List.sum_cons]

theorem foldl_addTech_nan (techs : List String) :
    techs.foldl addTech (JsNum.nan, JsNum.nan) = (JsNum.nan, JsNum.nan) := by
  induction techs with
  | nil => rfl
  | cons key rest ih =>
    rw [List.foldl_cons]
    cases h : PRICING_CONFIG.techs.lookup key with
    | some i => rw [addTech_own h]; exact ih
    | none =>
      cases hk : objectPrototypeKeys.contains key with
      | true => rw [addTech_inherited h hk]; exact ih
      | false => rw [addTech_undefined h hk]; exact ih

/-- The `forEach` loop from integer totals: every addition is exact while the duration
total stays below `2 ^ 53` and the cost total, a multiple of 100,000, below `2 ^ 58`. -/
theorem foldl_addTech (techs : List String) : ∀ a b : Nat,
    a + 3 * techs.length < 2 ^ 53 → b + 2500000 * techs.length < 2 ^ 58 → 100000 ∣ b →
    techs.foldl addTech (JsNum.int a, JsNum.int b) =
      if hasInheritedKey techs then (JsNum.nan, JsNum.nan)
      else (JsNum.int (a + sumDuration techs), JsNum.int (b + sumCost techs)) := by
  induction techs with
  | nil => intro a b _ _ _; simp [hasInheritedKey, sumDuration, sumCost]
  | cons key rest ih =>
    intro a b ha hb hd
    rw [List.foldl_cons]
    simp only [List.length_cons] at ha hb
    cases h : PRICING_CONFIG.techs.lookup key with
    | some i =>
      obtain ⟨h1, h2, h3⟩ := lookup_techs_bounds h
      have hk := lookup_techs_not_inherited h
      have hd2 : 100000 ∣ b + i.cost := Nat.dvd_add hd h3
      have hd32 : 32 ∣ b + i.cost := Nat.dvd_trans (by decide) hd2
      rw [addTech_own h]
      simp only []
      rw [JsNum.add_int_of_lt (by omega), JsNum.add_int_of_dvd (by omega) hd32]
      rw [ih (a + i.duration) (b + i.cost) (by omega) (by omega) hd2]
      have hd : optionDuration key = i.duration := by simp only [optionDuration, h]
      have hc : optionCost key = i.cost := by simp only [optionCost, h]
      rw [hasInheritedKey_cons, hk, Bool.false_or, sumDuration_cons, sumCost_cons, hd, hc,
        Nat.add_assoc, Nat.add_assoc]
    | none =>
      have hd0 : optionDuration key = 0 := by simp only [optionDuration, h]
      have hc0 : optionCost key = 0 := by simp only [optionCost, h]
      cases hk : objectPrototypeKeys.contains key with
      | true =>
        rw [addTech_inherited h hk, foldl_addTech_nan, hasInheritedKey_cons, hk, Bool.true_or,
          if_pos rfl]
      | false =>
        rw [addTech_undefined h hk, ih a b (by omega) (by omega) hd, hasInheritedKey_cons, hk,
          Bool.false_or, sumDuration_cons, sumCost_cons, hd0, hc0, Nat.zero_add, Nat.zero_add]

/-- The totals after the `forEach` loop over an array. -/
theorem techTotals_eq (techs : List String) (hlen : techs.length ≤ maxArrayLength) :
    techTotals techs =
      if hasInheritedKey techs then (JsNum.nan, JsNum.nan)
      else (JsNum.int (4 + sumDuration techs), JsNum.int (3000000 + sumCost techs)) := by
  have h : techs.length ≤ 2 ^ 32 - 1 := hlen
  exact foldl_addTech techs 4 3000000 (by omega) (by omega) (by decide)

/-- The platform lookup for `rpi`. -/
theorem getProperty_platforms_rpi :
    getProperty PRICING_CONFIG.platforms "rpi" = Lookup.own ⟨"Raspberry Pi", 1, 500000⟩ := by
  decide

/-- The platform lookup for a key that is neither `rpi` nor inherited. -/
theorem getProperty_platforms_undefined {p : String} (hp : p ≠ "rpi")
    (hk : objectPrototypeKeys.contains p = false) :
    getProperty PRICING_CONFIG.platforms p = Lookup.undefined := by
  have hb : (p == "rpi") = false := beq_eq_false_iff_ne.mpr hp
  have h : PRICING_CONFIG.platforms.lookup p = none := by
    simp only [PRICING_CONFIG, List.lookup, hb]
  exact getProperty_undefined h hk

theorem hasInheritedKey_eq_of_mem_iff {l₁ l₂ : List String}
    (h : ∀ k, k ∈ l₁ ↔ k ∈ l₂) : hasInheritedKey l₁ = hasInheritedKey l₂ := by
  rw [Bool.eq_iff_iff]
  simp only [hasInheritedKey, List.any_eq_true]
  constructor
  · rintro ⟨k, hk, hc⟩; exact ⟨k, (h k).1 hk, hc⟩
  · rintro ⟨k, hk, hc⟩; exact ⟨k, (h k).2 hk, hc⟩

/-- The duration sum counts every occurrence of a catalog option. -/
theorem sumDuration_eq_count (l : List String) :
    sumDuration l = 3 * l.count "cv_detection" + 2 * l.count "cv_classification" +
      2 * l.count "sensor_integration" + 3 * l.count "edge_inference" := by
  induction l with
  | nil => rfl
  | cons key rest ih =>
    rw [sumDuration_cons, ih]
    simp only [List.count_cons]
    by_cases h1 : key = "cv_detection"
    · subst h1; simp [optionDuration, PRICING_CONFIG, List.lookup]; omega
    by_cases h2 : key = "cv_classification"
    · subst h2; simp [optionDuration, PRICING_CONFIG, List.lookup]; omega
    by_cases h3 : key = "sensor_integration"
    · subst h3; simp [optionDuration, PRICING_CONFIG, List.lookup]; omega
    by_cases h4 : key = "edge_inference"
    · subst h4; simp [optionDuration, PRICING_CONFIG, List.lookup]; omega
    have hb1 : (key == "cv_detection") = false := beq_eq_false_iff_ne.mpr h1
    have hb2 : (key == "cv_classification") = false := beq_eq_false_iff_ne.mpr h2
    have hb3 : (key == "sensor_integration") = false := beq_eq_false_iff_ne.mpr h3
    have hb4 : (key == "edge_inference") = false := beq_eq_false_iff_ne.mpr h4
    simp [optionDuration, PRICING_CONFIG, List.lookup, h1, h2, h3, h4, hb1, hb2, hb3, hb4]

/-- The cost sum counts every occurrence of a catalog option. -/
theorem sumCost_eq_count (l : List String) :
    sumCost l = 2500000 * l.count "cv_detection" + 1800000 * l.count "cv_classification" +
      1200000 * l.count "sensor_integration" + 2000000 * l.count "edge_inference" := by
  induction l with
  | nil => rfl
  | cons key rest ih =>
    rw [sumCost_cons, ih]
    simp only [List.count_cons]
    by_cases h1 : key = "cv_detection"
    · subst h1; simp [optionCost, PRICING_CONFIG, List.lookup]; omega
    by_cases h2 : key = "cv_classification"
    · subst h2; simp [optionCost, PRICING_CONFIG, List.lookup]; omega
    by_cases h3 : key = "sensor_integration"
    · subst h3; simp [optionCost, PRICING_CONFIG, List.lookup]; omega
    by_cases h4 : key = "edge_inference"
    · subst h4; simp [optionCost, PRICING_CONFIG, List.lookup]; omega
    have hb1 : (key == "cv_detection") = false := beq_eq_false_iff_ne.mpr h1
    have hb2 : (key == "cv_classification") = false := beq_eq_false_iff_ne.mpr h2
    have hb3 : (key == "sensor_integration") = false := beq_eq_false_iff_ne.mpr h3
    have hb4 : (key == "edge_inference") = false := beq_eq_false_iff_ne.mpr h4
    simp [optionCost, PRICING_CONFIG, List.lookup, h1, h2, h3, h4, hb1, hb2, hb3, hb4]

theorem optionDuration_le (key : String) : optionDuration key ≤ 3 := by
  unfold optionDuration
  cases h : PRICING_CONFIG.techs.lookup key with
  | some i => exact (lookup_techs_bounds h).1
  | none => exact Nat.zero_le _

theorem optionCost_le (key : String) : optionCost key ≤ 2500000 := by
  unfold optionCost
  cases h : PRICING_CONFIG.techs.lookup key with
  | some i => exact (lookup_techs_bounds h).2.1
  | none => exact Nat.zero_le _

theorem optionCost_dvd (key : String) : 100000 ∣ optionCost key := by
  unfold optionCost
  cases h : PRICING_CONFIG.techs.lookup key with
  | some i => exact (lookup_techs_bounds h).2.2
  | none => exact Nat.dvd_zero _

theorem sumDuration_le (l : List String) : sumDuration l ≤ 3 * l.length := by
  induction l with
  | nil => simp [sumDuration]
  | cons key rest ih =>
    rw [sumDuration_cons, List.length_cons]
    have := optionDuration_le key
    omega

theorem sumCost_le (l : List String) : sumCost l ≤ 2500000 * l.length := by
  induction l with
  | nil => simp [sumCost]
  | cons key rest ih =>
    rw [sumCost_cons, List.length_cons]
    have := optionCost_le key
    omega

theorem sumCost_dvd (l : List String) : 100000 ∣ sumCost l := by
  induction l with
  | nil => simp [sumCost]
  | cons key rest ih =>
    rw [sumCost_cons]
    exact Nat.dvd_add (optionCost_dvd key) ih

/-- The totals before the multiplier with the platform `rpi`, for an array without
inherited keys. -/
theorem totals_rpi (techs : List String) (c : String) (hlen : techs.length ≤ maxArrayLength)
    (hclean : hasInheritedKey techs = false) :
    totals ⟨techs, "rpi", c⟩ =
      (JsNum.int (4 + sumDuration techs + 1), JsNum.int (3000000 + sumCost techs + 500000)) := by
  have h : techs.length ≤ 2 ^ 32 - 1 := hlen
  have h1 := sumDuration_le techs
  have h2 := sumCost_le techs
  have h3 : 100000 ∣ 3000000 + sumCost techs + 500000 :=
    Nat.dvd_add (Nat.dvd_add (by decide) (sumCost_dvd techs)) (by decide)
  have h4 : 32 ∣ 3000000 + sumCost techs + 500000 := Nat.dvd_trans (by decide) h3
  simp only [totals, techTotals_eq techs hlen, hclean, Bool.false_eq_true, if_false,
    getProperty_platforms_rpi, addItem, Lookup.truthy, Lookup.num, if_true]
  rw [JsNum.add_int_of_lt (by omega), JsNum.add_int_of_dvd (by omega) h4]

/-- The totals before the multiplier with a platform key that is no property of
`PRICING_CONFIG.platforms`, for an array without inherited keys. -/
theorem totals_unknown_platform (techs : List String) (p c : String)
    (hlen : techs.length ≤ maxArrayLength) (hclean : hasInheritedKey techs = false)
    (hp : p ≠ "rpi") (hk : objectPrototypeKeys.contains p = false) :
    totals ⟨techs, p, c⟩ =
      (JsNum.int (4 + sumDuration techs), JsNum.int (3000000 + sumCost techs)) := by
  simp only [totals, techTotals_eq techs hlen, hclean, Bool.false_eq_true, if_false,
    getProperty_platforms_undefined hp hk, addItem, Lookup.truthy]

/-! ## Agreement of each field with exact arithmetic -/

theorem mathRound_fin_eq {R k n : Nat} (h1 : 2 * n * 2 ^ k ≤ 2 * R + 2 ^ k)
    (h2 : 2 * R + 2 ^ k < 2 * (n + 1) * 2 ^ k) :
    JsNum.mathRound (JsNum.fin R k) = JsNum.int n := by
  simp only [JsNum.mathRound, JsNum.int]
  congr 1
  apply Nat.div_eq_of_lt_le
  · rw [Nat.pow_succ]; calc n * (2 ^ k * 2) = 2 * n * 2 ^ k := by ring
      _ ≤ _ := h1
  · rw [Nat.pow_succ]; calc 2 * R + 2 ^ k < 2 * (n + 1) * 2 ^ k := h2
      _ = (n + 1) * (2 ^ k * 2) := by ring

/-- The first product with the multiplier 2.2 for a cost total between `2 ^ 49` and
`5 * 2 ^ 48`: the exact product `220000 * t`, or a quarter above it when the product is
below `2 ^ 51`. -/
theorem roundSignificand_complex_wide (t : Nat) (h1 : 2 ^ 49 < 100000 * t)
    (h2 : 100000 * t < 5 * 2 ^ 48) :
    JsNum.roundSignificand (100000 * t * 2476979795053773) = 220000 * t * 2 ^ 50 ∨
    100000 * t * 2476979795053773 < 2 ^ 101 ∧
      JsNum.roundSignificand (100000 * t * 2476979795053773) = 220000 * t * 2 ^ 50 + 2 ^ 48 := by
  by_cases hb : 100000 * t * 2476979795053773 < 2 ^ 101
  · obtain ⟨a, r, hm, hr, hR⟩ :=
      JsNum.roundSignificand_cases_at (m := 100000 * t * 2476979795053773) (j := 48)
        (by omega) (by omega)
    rcases hR with ⟨hR, h⟩ | ⟨hR, h⟩ <;> rw [hR] <;> omega
  · obtain ⟨a, r, hm, hr, hR⟩ :=
      JsNum.roundSignificand_cases_at (m := 100000 * t * 2476979795053773) (j := 49)
        (by omega) (by omega)
    rcases hR with ⟨hR, h⟩ | ⟨hR, h⟩ <;> rw [hR] <;> omega

/-- The point estimate with the multiplier 2.2 agrees with exact arithmetic for a cost
total between `2 ^ 49` and `5 * 2 ^ 48`. -/
theorem mathRound_complex_base_wide (t : Nat) (h1 : 2 ^ 49 < 100000 * t)
    (h2 : 100000 * t < 5 * 2 ^ 48) :
    JsNum.mathRound ((JsNum.int (100000 * t)).mul JsNum.lit_2_2) =
      JsNum.int (roundHalfUp (100000 * t * 11) 5) := by
  simp only [JsNum.int, JsNum.lit_2_2, JsNum.mul, JsNum.roundBinary64, Nat.zero_add]
  rcases roundSignificand_complex_wide t h1 h2 with hR | ⟨_, hR⟩ <;> rw [hR] <;>
    apply mathRound_fin_eq <;> (unfold roundHalfUp; omega)

/-- The lower bound with the multiplier 2.2 agrees with exact arithmetic for a cost
total between `2 ^ 49` and `5 * 2 ^ 48`. -/
theorem mathRound_complex_min_wide (t : Nat) (h1 : 2 ^ 49 < 100000 * t)
    (h2 : 100000 * t < 5 * 2 ^ 48) :
    JsNum.mathRound (((JsNum.int (100000 * t)).mul JsNum.lit_2_2).mul JsNum.lit_0_9) =
      JsNum.int (roundHalfUp (100000 * t * 11 * 9) (5 * 10)) := by
  simp only [JsNum.int, JsNum.lit_2_2, JsNum.lit_0_9, JsNum.mul, JsNum.roundBinary64,
    Nat.zero_add]
  have hR1 := roundSignificand_complex_wide t h1 h2
  generalize JsNum.roundSignificand (100000 * t * 2476979795053773) = R1 at hR1 ⊢
  by_cases hb0 : R1 * 8106479329266893 < 2 ^ 153
  · obtain ⟨a2, r2, hm2, hr2, hR2⟩ :=
      JsNum.roundSignificand_cases_at (m := R1 * 8106479329266893) (j := 100) (by omega) (by omega)
    rcases hR2 with ⟨hR2, h⟩ | ⟨hR2, h⟩ <;> rw [hR2] <;>
      apply mathRound_fin_eq <;> (unfold roundHalfUp; omega)
  by_cases hb1 : R1 * 8106479329266893 < 2 ^ 154
  · obtain ⟨a2, r2, hm2, hr2, hR2⟩ :=
      JsNum.roundSignificand_cases_at (m := R1 * 8106479329266893) (j := 101) (by omega) (by omega)
    rcases hR2 with ⟨hR2, h⟩ | ⟨hR2, h⟩ <;> rw [hR2] <;>
      apply mathRound_fin_eq <;> (unfold roundHalfUp; omega)
  obtain ⟨a2, r2, hm2, hr2, hR2⟩ :=
    JsNum.roundSignificand_cases_at (m := R1 * 8106479329266893) (j := 102) (by omega) (by omega)
  rcases hR2 with ⟨hR2, h⟩ | ⟨hR2, h⟩ <;> rw [hR2] <;>
    apply mathRound_fin_eq <;> (unfold roundHalfUp; omega)

/-- The upper bound with the multiplier 2.2 agrees with exact arithmetic for a cost
total between `2 ^ 49` and `5 * 2 ^ 48`. -/
theorem mathRound_complex_max_wide (t : Nat) (h1 : 2 ^ 49 < 100000 * t)
    (h2 : 100000 * t < 5 * 2 ^ 48) :
    JsNum.mathRound (((JsNum.int (100000 * t)).mul JsNum.lit_2_2).mul JsNum.lit_1_2) =
      JsNum.int (roundHalfUp (100000 * t * 11 * 6) (5 * 5)) := by
  simp only [JsNum.int, JsNum.lit_2_2, JsNum.lit_1_2, JsNum.mul, JsNum.roundBinary64,
    Nat.zero_add]
  have hR1 := roundSignificand_complex_wide t h1 h2
  generalize JsNum.roundSignificand (100000 * t * 2476979795053773) = R1 at hR1 ⊢
  by_cases hb0 : R1 * 5404319552844595 < 2 ^ 153
  · obtain ⟨a2, r2, hm2, hr2, hR2⟩ :=
      JsNum.roundSignificand_cases_at (m := R1 * 5404319552844595) (j := 100) (by omega) (by omega)
    rcases hR2 with ⟨hR2, h⟩ | ⟨hR2, h⟩ <;> rw [hR2] <;>
      apply mathRound_fin_eq <;> (unfold roundHalfUp; omega)
  obtain ⟨a2, r2, hm2, hr2, hR2⟩ :=
    JsNum.roundSignificand_cases_at (m := R1 * 5404319552844595) (j := 101) (by omega) (by omega)
  rcases hR2 with ⟨hR2, h⟩ | ⟨hR2, h⟩ <;> rw [hR2] <;>
    apply mathRound_fin_eq <;> (unfold roundHalfUp; omega)

/-- The point estimate with the multiplier 1.0 agrees with exact arithmetic. -/
theorem mathRound_simple (T : Nat) (hT : T ≤ 2 ^ 34 ∨ 100000 ∣ T ∧ T < 5 * 2 ^ 48) :
    JsNum.mathRound ((JsNum.int T).mul JsNum.lit_1_0) = JsNum.int (roundHalfUp (T * 1) 1) := by
  have hlt : T * 1 < 2 ^ 53 := by omega
  simp only [JsNum.int, JsNum.lit_1_0, JsNum.mul, JsNum.roundBinary64, Nat.add_zero,
    JsNum.roundSignificand_of_lt hlt]
  apply mathRound_fin_eq <;> (unfold roundHalfUp; omega)

/-- The point estimate with the multiplier 1.5 agrees with exact arithmetic. -/
theorem mathRound_standard (T : Nat) (hT : T ≤ 2 ^ 34 ∨ 100000 ∣ T ∧ T < 5 * 2 ^ 48) :
    JsNum.mathRound ((JsNum.int T).mul JsNum.lit_1_5) = JsNum.int (roundHalfUp (T * 3) 2) := by
  have hlt : T * 3 < 2 ^ 53 := by omega
  simp only [JsNum.int, JsNum.lit_1_5, JsNum.mul, JsNum.roundBinary64, Nat.zero_add,
    JsNum.roundSignificand_of_lt hlt]
  apply mathRound_fin_eq <;> (unfold roundHalfUp; omega)

/-- The point estimate with the multiplier 2.2 agrees with exact arithmetic. -/
theorem mathRound_complex (T : Nat) (hT : T ≤ 2 ^ 34 ∨ 100000 ∣ T ∧ T < 5 * 2 ^ 48) :
    JsNum.mathRound ((JsNum.int T).mul JsNum.lit_2_2) = JsNum.int (roundHalfUp (T * 11) 5) := by
  have small : T ≤ 2 ^ 49 →
      JsNum.mathRound ((JsNum.int T).mul JsNum.lit_2_2) =
        JsNum.int (roundHalfUp (T * 11) 5) := by
    intro hs
    simp only [JsNum.int, JsNum.lit_2_2, JsNum.mul, JsNum.roundBinary64, Nat.zero_add]
    obtain ⟨e1, e2⟩ := JsNum.roundSignificand_bounds (T * 2476979795053773)
    apply mathRound_fin_eq <;> (unfold roundHalfUp; omega)
  rcases hT with hT | ⟨⟨t, rfl⟩, hT⟩
  · exact small (by omega)
  · by_cases hw : 100000 * t ≤ 2 ^ 49
    · exact small hw
    · exact mathRound_complex_base_wide t (by omega) hT

/-- The lower bound with the multiplier 1.0 agrees with exact arithmetic. -/
theorem mathRound_simple_min (T : Nat) (hT : T ≤ 2 ^ 34 ∨ 100000 ∣ T ∧ T < 5 * 2 ^ 48) :
    JsNum.mathRound (((JsNum.int T).mul JsNum.lit_1_0).mul JsNum.lit_0_9) =
      JsNum.int (roundHalfUp (T * 1 * 9) (1 * 10)) := by
  have hlt : T * 1 < 2 ^ 53 := by omega
  simp only [JsNum.int, JsNum.lit_1_0, JsNum.lit_0_9, JsNum.mul, JsNum.roundBinary64,
    Nat.add_zero, Nat.zero_add, JsNum.roundSignificand_of_lt hlt]
  obtain ⟨e1, e2⟩ := JsNum.roundSignificand_bounds (T * 1 * 8106479329266893)
  rcases hT with hT | ⟨⟨t, rfl⟩, hT⟩
  · by_cases htie : (2 * (T * 1 * 9) + 1 * 10) % (2 * (1 * 10)) = 0
    · have hn : 2 * (T * 1 * 9) + 1 * 10 = 2 * (1 * 10) * roundHalfUp (T * 1 * 9) (1 * 10) := by
        unfold roundHalfUp; omega
      generalize roundHalfUp (T * 1 * 9) (1 * 10) = n at *
      have g : (2 * n - 1) * 2 ^ 52 ≤ JsNum.roundSignificand (T * 1 * 8106479329266893) :=
        JsNum.le_roundSignificand (j := 52) (by omega) (Nat.dvd_mul_left _ _) (by omega)
      apply mathRound_fin_eq <;> omega
    · apply mathRound_fin_eq <;> (unfold roundHalfUp; omega)
  · apply mathRound_fin_eq <;> (unfold roundHalfUp; omega)

/-- The upper bound with the multiplier 1.0 agrees with exact arithmetic. -/
theorem mathRound_simple_max (T : Nat) (hT : T ≤ 2 ^ 34 ∨ 100000 ∣ T ∧ T < 5 * 2 ^ 48) :
    JsNum.mathRound (((JsNum.int T).mul JsNum.lit_1_0).mul JsNum.lit_1_2) =
      JsNum.int (roundHalfUp (T * 1 * 6) (1 * 5)) := by
  have hlt : T * 1 < 2 ^ 53 := by omega
  simp only [JsNum.int, JsNum.lit_1_0, JsNum.lit_1_2, JsNum.mul, JsNum.roundBinary64,
    Nat.add_zero, Nat.zero_add, JsNum.roundSignificand_of_lt hlt]
  obtain ⟨e1, e2⟩ := JsNum.roundSignificand_bounds (T * 1 * 5404319552844595)
  rcases hT with hT | ⟨⟨t, rfl⟩, hT⟩ <;>
    apply mathRound_fin_eq <;> (unfold roundHalfUp; omega)

/-- The lower bound with the multiplier 1.5 agrees with exact arithmetic. -/
theorem mathRound_standard_min (T : Nat) (hT : T ≤ 2 ^ 34 ∨ 100000 ∣ T ∧ T < 5 * 2 ^ 48) :
    JsNum.mathRound (((JsNum.int T).mul JsNum.lit_1_5).mul JsNum.lit_0_9) =
      JsNum.int (roundHalfUp (T * 3 * 9) (2 * 10)) := by
  have hlt : T * 3 < 2 ^ 53 := by omega
  simp only [JsNum.int, JsNum.lit_1_5, JsNum.lit_0_9, JsNum.mul, JsNum.roundBinary64,
    Nat.add_zero, Nat.zero_add, JsNum.roundSignificand_of_lt hlt]
  obtain ⟨e1, e2⟩ := JsNum.roundSignificand_bounds (T * 3 * 8106479329266893)
  rcases hT with hT | ⟨⟨t, rfl⟩, hT⟩
  · by_cases htie : (2 * (T * 3 * 9) + 2 * 10) % (2 * (2 * 10)) = 0
    · have hn : 2 * (T * 3 * 9) + 2 * 10 = 2 * (2 * 10) * roundHalfUp (T * 3 * 9) (2 * 10) := by
        unfold roundHalfUp; omega
      generalize roundHalfUp (T * 3 * 9) (2 * 10) = n at *
      have g : (2 * n - 1) * 2 ^ 53 ≤ JsNum.roundSignificand (T * 3 * 8106479329266893) :=
        JsNum.le_roundSignificand (j := 53) (by omega) (Nat.dvd_mul_left _ _) (by omega)
      apply mathRound_fin_eq <;> omega
    · apply mathRound_fin_eq <;> (unfold roundHalfUp; omega)
  · apply mathRound_fin_eq <;> (unfold roundHalfUp; omega)

/-- The upper bound with the multiplier 1.5 agrees with exact arithmetic. -/
theorem mathRound_standard_max (T : Nat) (hT : T ≤ 2 ^ 34 ∨ 100000 ∣ T ∧ T < 5 * 2 ^ 48) :
    JsNum.mathRound (((JsNum.int T).mul JsNum.lit_1_5).mul JsNum.lit_1_2) =
      JsNum.int (roundHalfUp (T * 3 * 6) (2 * 5)) := by
  have hlt : T * 3 < 2 ^ 53 := by omega
  simp only [JsNum.int, JsNum.lit_1_5, JsNum.lit_1_2, JsNum.mul, JsNum.roundBinary64,
    Nat.add_zero, Nat.zero_add, JsNum.roundSignificand_of_lt hlt]
  obtain ⟨e1, e2⟩ := JsNum.roundSignificand_bounds (T * 3 * 5404319552844595)
  rcases hT with hT | ⟨⟨t, rfl⟩, hT⟩ <;>
    apply mathRound_fin_eq <;> (unfold roundHalfUp; omega)

/-- The lower bound with the multiplier 2.2 agrees with exact arithmetic. -/
theorem mathRound_complex_min (T : Nat) (hT : T ≤ 2 ^ 34 ∨ 100000 ∣ T ∧ T < 5 * 2 ^ 48) :
    JsNum.mathRound (((JsNum.int T).mul JsNum.lit_2_2).mul JsNum.lit_0_9) =
      JsNum.int (roundHalfUp (T * 11 * 9) (5 * 10)) := by
  have small : (T ≤ 2 ^ 34 ∨ 100000 ∣ T ∧ T ≤ 2 ^ 49) →
      JsNum.mathRound (((JsNum.int T).mul JsNum.lit_2_2).mul JsNum.lit_0_9) =
        JsNum.int (roundHalfUp (T * 11 * 9) (5 * 10)) := by
    intro hs
    simp only [JsNum.int, JsNum.lit_2_2, JsNum.lit_0_9, JsNum.mul, JsNum.roundBinary64,
      Nat.zero_add]
    obtain ⟨e1, e2⟩ := JsNum.roundSignificand_bounds (T * 2476979795053773)
    generalize hR1 : JsNum.roundSignificand (T * 2476979795053773) = R1 at *
    obtain ⟨e3, e4⟩ := JsNum.roundSignificand_bounds (R1 * 8106479329266893)
    rcases hs with hs | ⟨⟨t, rfl⟩, hs⟩
    · by_cases htie : (2 * (T * 11 * 9) + 5 * 10) % (2 * (5 * 10)) = 0
      · have hn : 2 * (T * 11 * 9) + 5 * 10 =
            2 * (5 * 10) * roundHalfUp (T * 11 * 9) (5 * 10) := by
          unfold roundHalfUp; omega
        generalize roundHalfUp (T * 11 * 9) (5 * 10) = n at *
        have g1 : T / 5 * 11 * 2 ^ 50 ≤ R1 :=
          hR1 ▸ JsNum.le_roundSignificand (j := 50) (by omega) (Nat.dvd_mul_left _ _) (by omega)
        have g2 : (2 * n - 1) * 2 ^ 102 ≤ JsNum.roundSignificand (R1 * 8106479329266893) :=
          JsNum.le_roundSignificand (j := 102) (by omega) (Nat.dvd_mul_left _ _) (by omega)
        apply mathRound_fin_eq <;> omega
      · apply mathRound_fin_eq <;> (unfold roundHalfUp; omega)
    · apply mathRound_fin_eq <;> (unfold roundHalfUp; omega)
  rcases hT with hT | ⟨⟨t, rfl⟩, hT⟩
  · exact small (Or.inl hT)
  · by_cases hw : 100000 * t ≤ 2 ^ 49
    · exact small (Or.inr ⟨Nat.dvd_mul_right _ _, hw⟩)
    · exact mathRound_complex_min_wide t (by omega) hT

/-- The upper bound with the multiplier 2.2 agrees with exact arithmetic. -/
theorem mathRound_complex_max (T : Nat) (hT : T ≤ 2 ^ 34 ∨ 100000 ∣ T ∧ T < 5 * 2 ^ 48) :
    JsNum.mathRound (((JsNum.int T).mul JsNum.lit_2_2).mul JsNum.lit_1_2) =
      JsNum.int (roundHalfUp (T * 11 * 6) (5 * 5)) := by
  have small : (T ≤ 2 ^ 34 ∨ 100000 ∣ T ∧ T ≤ 2 ^ 49) →
      JsNum.mathRound (((JsNum.int T).mul JsNum.lit_2_2).mul JsNum.lit_1_2) =
        JsNum.int (roundHalfUp (T * 11 * 6) (5 * 5)) := by
    intro hs
    simp only [JsNum.int, JsNum.lit_2_2, JsNum.lit_1_2, JsNum.mul, JsNum.roundBinary64,
      Nat.zero_add]
    obtain ⟨e1, e2⟩ := JsNum.roundSignificand_bounds (T * 2476979795053773)
    generalize hR1 : JsNum.roundSignificand (T * 2476979795053773) = R1 at *
    obtain ⟨e3, e4⟩ := JsNum.roundSignificand_bounds (R1 * 5404319552844595)
    rcases hs with hs | ⟨⟨t, rfl⟩, hs⟩ <;>
      apply mathRound_fin_eq <;> (unfold roundHalfUp; omega)
  rcases hT with hT | ⟨⟨t, rfl⟩, hT⟩
  · exact small (Or.inl hT)
  · by_cases hw : 100000 * t ≤ 2 ^ 49
    · exact small (Or.inr ⟨Nat.dvd_mul_right _ _, hw⟩)
    · exact mathRound_complex_max_wide t (by omega) hT

/-! ## Agreement with the specified algorithm -/

/-- The multiplier of a complexity key that names no inherited property: the tier's
multiplier, and 1.5 for a key that is no tier. -/
theorem multiplierOf_eq {c : String} (hc : objectPrototypeKeys.contains c = false) :
    multiplierOf c =
      if c = "simple" then JsNum.lit_1_0
      else if c = "complex" then JsNum.lit_2_2
      else JsNum.lit_1_5 := by
  by_cases h1 : c = "simple"
  · subst h1; decide
  by_cases h2 : c = "standard"
  · subst h2; decide
  by_cases h3 : c = "complex"
  · subst h3; decide
  have hb1 : (c == "simple") = false := beq_eq_false_iff_ne.mpr h1
  have hb2 : (c == "standard") = false := beq_eq_false_iff_ne.mpr h2
  have hb3 : (c == "complex") = false := beq_eq_false_iff_ne.mpr h3
  have h : PRICING_CONFIG.complexity.lookup c = none := by
    simp only [PRICING_CONFIG, List.lookup, hb1, hb2, hb3]
  simp only [multiplierOf, getProperty_undefined h hc, Lookup.truthy, Bool.false_eq_true,
    if_false, h1, h3]

/-- The multiplier of the specification for a key: the exact fraction of the tier. -/
theorem specMultiplier_eq (c : String) :
    specMultiplier c =
      if c = "simple" then (1, 1) else if c = "complex" then (11, 5) else (3, 2) := rfl

/-- The estimate from integer totals agrees with the specified values when the duration
total is at most `2 ^ 34` and the cost total a multiple of 100,000 below `5 * 2 ^ 48`. -/
theorem estimateOf_eq_spec {c : String} (hc : objectPrototypeKeys.contains c = false)
    (td tc : Nat) (hd : td ≤ 2 ^ 34) (hc1 : 100000 ∣ tc) (hc2 : tc < 5 * 2 ^ 48) :
    estimateOf (JsNum.int td, JsNum.int tc) (multiplierOf c) =
      Estimate.ofNats
        (roundHalfUp (td * (specMultiplier c).1) (specMultiplier c).2)
        (roundHalfUp (td * (specMultiplier c).1 * 9) ((specMultiplier c).2 * 10))
        (roundHalfUp (td * (specMultiplier c).1 * 6) ((specMultiplier c).2 * 5))
        (roundHalfUp (tc * (specMultiplier c).1) (specMultiplier c).2)
        (roundHalfUp (tc * (specMultiplier c).1 * 9) ((specMultiplier c).2 * 10))
        (roundHalfUp (tc * (specMultiplier c).1 * 6) ((specMultiplier c).2 * 5)) := by
  have hD : td ≤ 2 ^ 34 ∨ 100000 ∣ td ∧ td < 5 * 2 ^ 48 := Or.inl hd
  have hC : tc ≤ 2 ^ 34 ∨ 100000 ∣ tc ∧ tc < 5 * 2 ^ 48 := Or.inr ⟨hc1, hc2⟩
  have hr1 : PRICING_CONFIG.rangeMin = JsNum.lit_0_9 := rfl
  have hr2 : PRICING_CONFIG.rangeMax = JsNum.lit_1_2 := rfl
  rw [multiplierOf_eq hc, specMultiplier_eq]
  unfold estimateOf Estimate.ofNats
  simp only [hr1, hr2]
  by_cases h1 : c = "simple"
  · rw [if_pos h1, if_pos h1, mathRound_simple td hD, mathRound_simple_min td hD,
      mathRound_simple_max td hD, mathRound_simple tc hC, mathRound_simple_min tc hC,
      mathRound_simple_max tc hC]
  rw [if_neg h1, if_neg h1]
  by_cases h3 : c = "complex"
  · rw [if_pos h3, if_pos h3, mathRound_complex td hD, mathRound_complex_min td hD,
      mathRound_complex_max td hD, mathRound_complex tc hC, mathRound_complex_min tc hC,
      mathRound_complex_max tc hC]
  rw [if_neg h3, if_neg h3, mathRound_standard td hD, mathRound_standard_min td hD,
    mathRound_standard_max td hD, mathRound_standard tc hC, mathRound_standard_min tc hC,
    mathRound_standard_max tc hC]

/-- The platform weights of the specification are those of `rpi` or zero. -/
theorem specPlatform_bounds (p : String) :
    specPlatformDuration p ≤ 1 ∧ specPlatformCost p ≤ 500000 ∧
      100000 ∣ specPlatformCost p := by
  by_cases h : p = "rpi"
  · subst h; decide
  · have hb : (p == "rpi") = false := beq_eq_false_iff_ne.mpr h
    have hd : specPlatformDuration p = 0 := by
      simp only [specPlatformDuration, PRICING_CONFIG, List.lookup, hb]
    have hc : specPlatformCost p = 0 := by
      simp only [specPlatformCost, PRICING_CONFIG, List.lookup, hb]
    rw [hd, hc]; decide

/-- The totals before the multiplier, for an array without inherited keys and a platform
key that names no inherited property. -/
theorem totals_eq (techs : List String) (p c : String) (hlen : techs.length ≤ maxArrayLength)
    (hclean : hasInheritedKey techs = false) (hp : objectPrototypeKeys.contains p = false) :
    totals ⟨techs, p, c⟩ =
      (JsNum.int (PRICING_CONFIG.baseDuration + sumDuration techs + specPlatformDuration p),
        JsNum.int (PRICING_CONFIG.baseCost + sumCost techs + specPlatformCost p)) := by
  by_cases h : p = "rpi"
  · subst h; exact totals_rpi techs c hlen hclean
  · have hb : (p == "rpi") = false := beq_eq_false_iff_ne.mpr h
    have hd : specPlatformDuration p = 0 := by
      simp only [specPlatformDuration, PRICING_CONFIG, List.lookup, hb]
    have hc : specPlatformCost p = 0 := by
      simp only [specPlatformCost, PRICING_CONFIG, List.lookup, hb]
    rw [totals_unknown_platform techs p c hlen hclean h hp, hd, hc]
    rfl

/-- The code and the specified algorithm agree on every selection of at most 562,949,952
keys in which no key names an inherited property. -/
theorem calculateEstimate_agrees_of_clean (s : Selections)
    (hlen : s.techs.length ≤ 562949952) (htechs : hasInheritedKey s.techs = false)
    (hp : objectPrototypeKeys.contains s.platform = false)
    (hc : objectPrototypeKeys.contains s.complexity = false) :
    calculateEstimate s = specEstimate s := by
  obtain ⟨techs, p, c⟩ := s
  simp only at hlen htechs hp hc
  have hlen2 : techs.length ≤ maxArrayLength := Nat.le_trans hlen (by decide)
  have h1 := sumDuration_le techs
  have h2 := sumCost_le techs
  obtain ⟨hpd, hpc1, hpc2⟩ := specPlatform_bounds p
  have hdvd : 100000 ∣ PRICING_CONFIG.baseCost + sumCost techs + specPlatformCost p :=
    Nat.dvd_add (Nat.dvd_add (by decide) (sumCost_dvd techs)) hpc2
  have hb1 : PRICING_CONFIG.baseDuration = 4 := rfl
  have hb2 : PRICING_CONFIG.baseCost = 3000000 := rfl
  unfold calculateEstimate specEstimate
  rw [totals_eq techs p c hlen2 htechs hp]
  exact estimateOf_eq_spec hc _ _ (by omega) hdvd (by omega)


/-! ## Arrays that repeat one key -/

theorem hasInheritedKey_replicate {k : String} (hk : objectPrototypeKeys.contains k = false)
    (n : Nat) : hasInheritedKey (List.replicate n k) = false := by
  induction n with
  | zero => rfl
  | succ n ih => rw [List.replicate_succ, hasInheritedKey_cons, hk, ih]; rfl

theorem sumDuration_replicate (k : String) (n : Nat) :
    sumDuration (List.replicate n k) = n * optionDuration k := by
  induction n with
  | zero => simp [sumDuration]
  | succ n ih => rw [List.replicate_succ, sumDuration_cons, ih, Nat.succ_mul, Nat.add_comm]

theorem sumCost_replicate (k : String) (n : Nat) :
    sumCost (List.replicate n k) = n * optionCost k := by
  induction n with
  | zero => simp [sumCost]
  | succ n ih => rw [List.replicate_succ, sumCost_cons, ih, Nat.succ_mul, Nat.add_comm]

/-- The totals for `n` copies of `cv_detection` and the platform `rpi`. -/
theorem totals_replicate_cv_detection (n : Nat) (hn : n ≤ maxArrayLength) (c : String) :
    totals ⟨List.replicate n "cv_detection", "rpi", c⟩ =
      (JsNum.int (4 + n * 3 + 1), JsNum.int (3000000 + n * 2500000 + 500000)) := by
  rw [totals_rpi _ c (by rw [List.length_replicate]; exact hn)
    (hasInheritedKey_replicate (by decide) n), sumDuration_replicate, sumCost_replicate]
  rfl

set_option maxRecDepth 100000 in
/-- With 562,949,953 copies of `cv_detection`, `rpi` and `complex`, the binary64 products
of the cost are one above the exact ones. -/
theorem calculateEstimate_replicate_cv_detection_complex :
    calculateEstimate ⟨List.replicate 562949953 "cv_detection", "rpi", "complex"⟩ =
      Estimate.ofNats 3715469701 3343922731 4458563641
        3096224749200001 2786602274280001 3715469699040001 := by
  unfold calculateEstimate
  rw [totals_replicate_cv_detection 562949953 (by decide)]
  decide

/-- The totals of the specified algorithm for `n` copies of `cv_detection`, `rpi` and
`complex`. -/
theorem specEstimate_replicate_cv_detection (n : Nat) :
    specEstimate ⟨List.replicate n "cv_detection", "rpi", "complex"⟩ =
      Estimate.ofNats
        (roundHalfUp ((4 + n * 3 + 1) * 11) 5)
        (roundHalfUp ((4 + n * 3 + 1) * 11 * 9) (5 * 10))
        (roundHalfUp ((4 + n * 3 + 1) * 11 * 6) (5 * 5))
        (roundHalfUp ((3000000 + n * 2500000 + 500000) * 11) 5)
        (roundHalfUp ((3000000 + n * 2500000 + 500000) * 11 * 9) (5 * 10))
        (roundHalfUp ((3000000 + n * 2500000 + 500000) * 11 * 6) (5 * 5)) := by
  have hd : optionDuration "cv_detection" = 3 := rfl
  have hc : optionCost "cv_detection" = 2500000 := rfl
  have hpd : specPlatformDuration "rpi" = 1 := rfl
  have hpc : specPlatformCost "rpi" = 500000 := rfl
  have hm : specMultiplier "complex" = (11, 5) := rfl
  have hb1 : PRICING_CONFIG.baseDuration = 4 := rfl
  have hb2 : PRICING_CONFIG.baseCost = 3000000 := rfl
  simp only [specEstimate, sumDuration_replicate, sumCost_replicate, hd, hc, hpd, hpc, hm, hb1,
    hb2]

/-- With 562,949,953 copies of `cv_detection`, `rpi` and `complex`, the values of the
specified algorithm. -/
theorem specEstimate_replicate_cv_detection_complex :
    specEstimate ⟨List.replicate 562949953 "cv_detection", "rpi", "complex"⟩ =
      Estimate.ofNats 3715469701 3343922731 4458563641
        3096224749200000 2786602274280000 3715469699040000 := by
  rw [specEstimate_replicate_cv_detection]
  decide

/-! ## The properties away from inherited keys -/

/-- The comparison of two integer Numbers. -/
theorem JsNum.le_int (a b : Nat) : JsNum.le (JsNum.int a) (JsNum.int b) = decide (a ≤ b) := by
  simp only [JsNum.le, JsNum.int, Nat.pow_zero, Nat.mul_one]

/-- The specified values are ordered: the lower bound is at most the point estimate and
the point estimate at most the upper bound. -/
theorem specEstimate_ordered (s : Selections) : (specEstimate s).ordered = true := by
  have key : ∀ t : Nat,
      roundHalfUp (t * (specMultiplier s.complexity).1 * 9) ((specMultiplier s.complexity).2 * 10)
        ≤ roundHalfUp (t * (specMultiplier s.complexity).1) (specMultiplier s.complexity).2 ∧
      roundHalfUp (t * (specMultiplier s.complexity).1) (specMultiplier s.complexity).2
        ≤ roundHalfUp (t * (specMultiplier s.complexity).1 * 6)
          ((specMultiplier s.complexity).2 * 5) := by
    intro t
    rw [specMultiplier_eq]
    unfold roundHalfUp
    split
    · dsimp only; constructor <;> omega
    · split
      · dsimp only; constructor <;> omega
      · dsimp only; constructor <;> omega
  simp only [specEstimate, Estimate.ofNats, Estimate.ordered, JsNum.le_int, Bool.and_eq_true,
    decide_eq_true_eq]
  exact ⟨⟨⟨(key _).1, (key _).2⟩, (key _).1⟩, (key _).2⟩

/-- The six values are ordered on every selection of at most 562,949,952 keys in which
no key names an inherited property. -/
theorem calculateEstimate_ordered_of_clean (s : Selections)
    (hlen : s.techs.length ≤ 562949952) (htechs : hasInheritedKey s.techs = false)
    (hp : objectPrototypeKeys.contains s.platform = false)
    (hc : objectPrototypeKeys.contains s.complexity = false) :
    (calculateEstimate s).ordered = true := by
  rw [calculateEstimate_agrees_of_clean s hlen htechs hp hc]
  exact specEstimate_ordered s

/-- A complexity key that is no tier and names no inherited property gives the estimate
of `standard`. -/
theorem calculateEstimate_unknown_complexity (techs : List String) (p k : String)
    (h1 : k ≠ "simple") (h3 : k ≠ "complex")
    (hk : objectPrototypeKeys.contains k = false) :
    calculateEstimate ⟨techs, p, k⟩ = calculateEstimate ⟨techs, p, "standard"⟩ := by
  have hm : multiplierOf k = multiplierOf "standard" := by
    rw [multiplierOf_eq hk, if_neg h1, if_neg h3]; rfl
  simp only [calculateEstimate, totals, hm]

/-- A key that is no catalog option and names no inherited property, inserted anywhere,
leaves the estimate unchanged. -/
theorem calculateEstimate_unknown_key_ignored (l₁ l₂ : List String) (p c k : String)
    (h : PRICING_CONFIG.techs.lookup k = none)
    (hk : objectPrototypeKeys.contains k = false) :
    calculateEstimate ⟨l₁ ++ k :: l₂, p, c⟩ = calculateEstimate ⟨l₁ ++ l₂, p, c⟩ := by
  have ht : techTotals (l₁ ++ k :: l₂) = techTotals (l₁ ++ l₂) := by
    simp only [techTotals, List.foldl_append, List.foldl_cons, addTech_undefined h hk]
  simp only [calculateEstimate, totals, ht]

/-- On every selection of fewer than 562,949,952 keys in which no key names an inherited
property, appending such a key lowers neither point estimate. -/
theorem calculateEstimate_append_mono_of_clean (l : List String) (k p c : String)
    (hlen : l.length < 562949952) (hl : hasInheritedKey l = false)
    (hk : objectPrototypeKeys.contains k = false)
    (hp : objectPrototypeKeys.contains p = false)
    (hc : objectPrototypeKeys.contains c = false) :
    JsNum.le (calculateEstimate ⟨l, p, c⟩).durationBase
      (calculateEstimate ⟨l ++ [k], p, c⟩).durationBase = true ∧
    JsNum.le (calculateEstimate ⟨l, p, c⟩).costBase
      (calculateEstimate ⟨l ++ [k], p, c⟩).costBase = true := by
  have hlk : hasInheritedKey (l ++ [k]) = false := by
    simp only [hasInheritedKey, List.any_append, List.any_cons, List.any_nil,
      Bool.or_false] at hl ⊢
    rw [hl, hk]; rfl
  have hlen2 : (l ++ [k]).length ≤ 562949952 := by
    rw [List.length_append, List.length_singleton]; omega
  have hd : sumDuration (l ++ [k]) = sumDuration l + optionDuration k := by
    simp [sumDuration]
  have hcost : sumCost (l ++ [k]) = sumCost l + optionCost k := by
    simp [sumCost]
  rw [calculateEstimate_agrees_of_clean ⟨l, p, c⟩ (Nat.le_of_lt hlen) hl hp hc,
    calculateEstimate_agrees_of_clean ⟨l ++ [k], p, c⟩ hlen2 hlk hp hc]
  simp only [specEstimate, Estimate.ofNats, JsNum.le_int, decide_eq_true_eq, hd, hcost]
  rw [specMultiplier_eq]
  unfold roundHalfUp
  split
  · dsimp only; constructor <;> apply Nat.div_le_div_right <;> omega
  · split
    · dsimp only; constructor <;> apply Nat.div_le_div_right <;> omega
    · dsimp only; constructor <;> apply Nat.div_le_div_right <;> omega

/-! ## formatMan on safe integers -/

/-- The absolute error of a rounding below `2 ^ (54 + j)` is at most `2 ^ j`. -/
theorem JsNum.roundSignificand_abs {m j : Nat} (h : m < 2 ^ (54 + j)) :
    JsNum.roundSignificand m ≤ m + 2 ^ j ∧ m ≤ JsNum.roundSignificand m + 2 ^ j := by
  obtain ⟨P, A, r, hm, hr, _, hP, _, hR⟩ := JsNum.roundSignificand_cases m
  have hs : JsNum.bitLength m - 53 ≤ j + 1 := by
    have := JsNum.bitLength_le h
    omega
  have hPj : P ≤ 2 * 2 ^ j := by
    rw [hP]
    calc 2 ^ (JsNum.bitLength m - 53) ≤ 2 ^ (j + 1) := Nat.pow_le_pow_right (by decide) hs
      _ = 2 * 2 ^ j := by rw [Nat.pow_succ, Nat.mul_comm]
  rcases hR with ⟨hR, h2⟩ | ⟨hR, h2⟩ <;> rw [hR] <;> omega

theorem bitLength_10000 : JsNum.bitLength 10000 = 14 := by decide

/-- The quotient by 10,000 of an integer below `2 ^ 53`, rounded by `Math.round`, is the
exact quotient rounded to nearest with ties up. -/
theorem mathRound_div_10000 (a : Nat) (ha : a < 2 ^ 53) :
    ((JsNum.int a).div (JsNum.int 10000)).mathRound = JsNum.int (roundHalfUp a 10000) := by
  have hb : JsNum.bitLength a ≤ 53 := JsNum.bitLength_le ha
  simp only [JsNum.int, JsNum.div, Nat.pow_zero, Nat.mul_one, JsNum.roundRatio,
    bitLength_10000, show (10000 : Nat) ≠ 0 by decide, if_false]
  obtain ⟨e', he⟩ : ∃ e', 56 + 14 - JsNum.bitLength a = e' + 13 := ⟨57 - JsNum.bitLength a, by omega⟩
  have he16 : 4 ≤ e' := by omega
  rw [he]
  have hP : 2 ^ (e' + 13) = 8192 * 2 ^ e' := by rw [Nat.pow_add]; ring
  have hP1 : 2 ^ (e' + 13 + 1) = 16384 * 2 ^ e' := by rw [Nat.pow_succ, hP]; ring
  have hQ16 : 16 ≤ 2 ^ e' := by
    calc 16 = 2 ^ 4 := by decide
      _ ≤ 2 ^ e' := Nat.pow_le_pow_right (by decide) he16
  rw [hP]
  generalize hQ : 2 ^ e' = Q at *
  -- the atoms
  obtain ⟨W, hW⟩ : ∃ W, W = a * Q := ⟨_, rfl⟩
  obtain ⟨N, hN⟩ : ∃ N, N = roundHalfUp a 10000 * Q := ⟨_, rfl⟩
  have hWlt : W < 2 ^ 53 * Q := by
    rw [hW]; exact Nat.mul_lt_mul_of_lt_of_le ha (Nat.le_refl _) (by omega)
  have hn1 : 20000 * N ≤ 2 * W + 10000 * Q := by
    have : 20000 * roundHalfUp a 10000 ≤ 2 * a + 10000 := by unfold roundHalfUp; omega
    calc 20000 * N = (20000 * roundHalfUp a 10000) * Q := by rw [hN]; ring
      _ ≤ (2 * a + 10000) * Q := Nat.mul_le_mul_right Q this
      _ = 2 * W + 10000 * Q := by rw [hW]; ring
  have hn2 : 2 * W + 10000 * Q ≤ 20000 * N + 19998 * Q := by
    have : 2 * a + 10000 ≤ 20000 * roundHalfUp a 10000 + 19998 := by unfold roundHalfUp; omega
    calc 2 * W + 10000 * Q = (2 * a + 10000) * Q := by rw [hW]; ring
      _ ≤ (20000 * roundHalfUp a 10000 + 19998) * Q := Nat.mul_le_mul_right Q this
      _ = 20000 * N + 19998 * Q := by rw [hN]; ring
  have haQ : a * (8192 * Q) = 8192 * W := by rw [hW]; ring
  rw [haQ]
  have hst : (if 8192 * W % 10000 = 0 then 0 else 1) ≤ 1 := by split <;> omega
  generalize (if 8192 * W % 10000 = 0 then 0 else 1) = st at hst ⊢
  have hmlt : 2 * (8192 * W / 10000) + st < 2 ^ 54 * Q := by omega
  have hmlt1 : 2 * (8192 * W / 10000) + st < 2 ^ (54 + e') := by
    rw [Nat.pow_add, hQ]; exact hmlt
  have hmlt2 : 2 * (8192 * W / 10000) + st < 2 ^ (53 + (e' + 1)) := by
    have e1 : 53 + (e' + 1) = 54 + e' := by omega
    rw [e1]; exact hmlt1
  obtain ⟨f1, f2⟩ := JsNum.roundSignificand_abs hmlt1
  rw [hQ] at f1 f2
  have hdvd : 2 ^ (e' + 1) ∣ 16384 * N - 8192 * Q := by
    have h2Q : 2 ^ (e' + 1) = 2 * Q := by rw [Nat.pow_succ, hQ, Nat.mul_comm]
    rw [h2Q]
    apply Nat.dvd_sub'
    · exact ⟨8192 * roundHalfUp a 10000, by rw [hN]; ring⟩
    · exact ⟨4096, by ring⟩
  have f3 : 16384 * N - 8192 * Q ≤ JsNum.roundSignificand (2 * (8192 * W / 10000) + st) :=
    JsNum.le_roundSignificand hmlt2 hdvd (by omega)
  generalize JsNum.roundSignificand (2 * (8192 * W / 10000) + st) = R at f1 f2 f3 ⊢
  have e2 : 2 * roundHalfUp a 10000 * 2 ^ (e' + 13 + 1) = 32768 * N := by
    rw [hP1, hN]; ring
  have e3 : 2 * (roundHalfUp a 10000 + 1) * 2 ^ (e' + 13 + 1) = 32768 * N + 32768 * Q := by
    rw [hP1, hN]; ring
  apply mathRound_fin_eq
  · rw [e2, hP1]; omega
  · rw [e3, hP1]; omega

/-- The function `formatMan` on an integer below `2 ^ 53`. -/
theorem formatMan_int (a : Nat) (ha : a < 2 ^ 53) :
    formatMan (JsNum.int a) = groupThousands (roundHalfUp a 10000) ++ "만" := by
  unfold formatMan
  simp only []
  rw [mathRound_div_10000 a ha]
  simp only [JsNum.int, toLocaleStringKoKR, Nat.pow_zero, Nat.div_one]

/-! ## Integral fields -/

/-- The estimate from integer totals and a finite multiplier has six integer fields. -/
theorem estimateOf_integral (a b m k : Nat) :
    (estimateOf (JsNum.int a, JsNum.int b) (JsNum.fin m k)).integral = true := by
  simp [estimateOf, Estimate.integral, JsNum.int, JsNum.mul, JsNum.roundBinary64,
    JsNum.mathRound, JsNum.isInteger, PRICING_CONFIG, JsNum.lit_0_9, JsNum.lit_1_2,
    Nat.mod_one]

/-- The estimate of an array without inherited keys, with a platform and a complexity that
name no inherited property, has six integer fields. -/
theorem calculateEstimate_integral_of_clean (techs : List String) (p c : String)
    (hlen : techs.length ≤ maxArrayLength) (htechs : hasInheritedKey techs = false)
    (hp : objectPrototypeKeys.contains p = false)
    (hc : objectPrototypeKeys.contains c = false) :
    (calculateEstimate ⟨techs, p, c⟩).integral = true := by
  unfold calculateEstimate
  rw [totals_eq techs p c hlen htechs hp, multiplierOf_eq hc]
  split
  · exact estimateOf_integral _ _ _ _
  · split
    · exact estimateOf_integral _ _ _ _
    · exact estimateOf_integral _ _ _ _

/-! ## The tiers and the cost figures in exact arithmetic -/

/-- The specified values do not decrease from `simple` to `standard` to `complex`. -/
theorem specEstimate_tiers (techs : List String) (p : String) :
    (specEstimate ⟨techs, p, "simple"⟩).allLe (specEstimate ⟨techs, p, "standard"⟩) = true ∧
    (specEstimate ⟨techs, p, "standard"⟩).allLe (specEstimate ⟨techs, p, "complex"⟩) = true := by
  have h1 : specMultiplier "simple" = (1, 1) := rfl
  have h2 : specMultiplier "standard" = (3, 2) := rfl
  have h3 : specMultiplier "complex" = (11, 5) := rfl
  simp only [specEstimate, Estimate.ofNats, Estimate.allLe, JsNum.le_int, Bool.and_eq_true,
    decide_eq_true_eq, h1, h2, h3, roundHalfUp]
  generalize PRICING_CONFIG.baseDuration + sumDuration techs + specPlatformDuration p = td
  generalize PRICING_CONFIG.baseCost + sumCost techs + specPlatformCost p = tc
  refine ⟨⟨⟨⟨⟨⟨?_, ?_⟩, ?_⟩, ?_⟩, ?_⟩, ?_⟩, ⟨⟨⟨⟨?_, ?_⟩, ?_⟩, ?_⟩, ?_⟩, ?_⟩ <;> omega

/-- The tiers are ordered on every array of at most 562,949,952 keys without inherited
keys, with a platform key that names no inherited property. -/
theorem calculateEstimate_tiers_of_clean (techs : List String) (p : String)
    (hlen : techs.length ≤ 562949952) (htechs : hasInheritedKey techs = false)
    (hp : objectPrototypeKeys.contains p = false) :
    (calculateEstimate ⟨techs, p, "simple"⟩).allLe
      (calculateEstimate ⟨techs, p, "standard"⟩) = true ∧
    (calculateEstimate ⟨techs, p, "standard"⟩).allLe
      (calculateEstimate ⟨techs, p, "complex"⟩) = true := by
  have c1 : objectPrototypeKeys.contains "simple" = false := by decide
  have c2 : objectPrototypeKeys.contains "standard" = false := by decide
  have c3 : objectPrototypeKeys.contains "complex" = false := by decide
  rw [calculateEstimate_agrees_of_clean ⟨techs, p, "simple"⟩ hlen htechs hp c1,
    calculateEstimate_agrees_of_clean ⟨techs, p, "standard"⟩ hlen htechs hp c2,
    calculateEstimate_agrees_of_clean ⟨techs, p, "complex"⟩ hlen htechs hp c3]
  exact specEstimate_tiers techs p

/-- The specified cost figures: the point estimate is a multiple of 10,000 and the range
is exactly nine tenths and six fifths of it. -/
theorem specEstimate_cost_exact (s : Selections) :
    ∃ base lo hi : Nat,
      (specEstimate s).costBase = JsNum.int base ∧ (specEstimate s).costMin = JsNum.int lo ∧
      (specEstimate s).costMax = JsNum.int hi ∧
      10000 ∣ base ∧ 10 * lo = 9 * base ∧ 5 * hi = 6 * base := by
  have hdvd : 100000 ∣ PRICING_CONFIG.baseCost + sumCost s.techs + specPlatformCost s.platform :=
    Nat.dvd_add (Nat.dvd_add (by decide) (sumCost_dvd s.techs))
      (specPlatform_bounds s.platform).2.2
  obtain ⟨t, ht⟩ := hdvd
  refine ⟨_, _, _, rfl, rfl, rfl, ?_⟩
  rw [ht, specMultiplier_eq]
  unfold roundHalfUp
  split
  · dsimp only; omega
  · split
    · dsimp only; omega
    · dsimp only; omega

/-! ## The animation -/

/-- Once no frame is requested, further frames change nothing. -/
theorem runFrames_of_settled (pow3 : JsNum → JsNum) (a : CountUp) (st : CountUpState)
    (frames : List JsNum) (h : st.frameRequested = false) :
    runFrames pow3 a st frames = st := by
  cases frames with
  | nil => rfl
  | cons now rest => simp only [runFrames, h, Bool.false_eq_true, if_false]

/-- A start time that is not falsy is kept by every later tick. -/
theorem startTimeAt_of_truthy (t now : JsNum) (h : t.falsy = false) :
    startTimeAt (some t) now = t := by
  simp only [startTimeAt, h, Bool.false_eq_true, if_false]

/-- A tick that leaves a frame requested has set the count-up text, and a tick that
leaves none has set the range text. -/
theorem tick_cases (pow3 : JsNum → JsNum) (a : CountUp) (st : CountUpState) (now : JsNum) :
    ((tick pow3 a st now).frameRequested = true ∧
      (progressAt a (startTimeAt st.startTime now) now).lt (JsNum.int 1) = true ∧
      (tick pow3 a st now).text =
        a.formatter (a.max.mul ((JsNum.int 1).sub (pow3 ((JsNum.int 1).sub
          (progressAt a (startTimeAt st.startTime now) now))))).mathRound) ∨
    ((tick pow3 a st now).frameRequested = false ∧
      (progressAt a (startTimeAt st.startTime now) now).lt (JsNum.int 1) = false ∧
      (tick pow3 a st now).text = a.formatter a.min ++ [TextPiece.str "~"] ++ a.formatter a.max) := by
  unfold tick
  cases h : (progressAt a (startTimeAt st.startTime now) now).lt (JsNum.int 1) with
  | true => left; simp only [h, if_true, and_self]
  | false => right; simp only [h, Bool.false_eq_true, if_false, and_self]

/-! ## The claims -/

/-- C1, as stated: for every selection the code returns the six values of the specified
algorithm. It does not, in two ways. For `techs = ['constructor']` the lookup finds the
inherited built-in, whose `duration` and `cost` are `undefined`, and all six fields are
NaN where the algorithm gives 8, 7, 9, 5,250,000, 4,725,000, 6,300,000. For 562,949,953
copies of `cv_detection` with `rpi` and `complex` the binary64 products of the cost round
to 3,096,224,749,200,001, 2,786,602,274,280,001 and 3,715,469,699,040,001, one above the
exact products. -/
theorem calculateEstimate_departs_from_spec :
    (calculateEstimate ⟨["constructor"], "rpi", "standard"⟩ = Estimate.allNaN ∧
      specEstimate ⟨["constructor"], "rpi", "standard"⟩ =
        Estimate.ofNats 8 7 9 5250000 4725000 6300000) ∧
    (calculateEstimate ⟨List.replicate 562949953 "cv_detection", "rpi", "complex"⟩ =
        Estimate.ofNats 3715469701 3343922731 4458563641
          3096224749200001 2786602274280001 3715469699040001 ∧
      specEstimate ⟨List.replicate 562949953 "cv_detection", "rpi", "complex"⟩ =
        Estimate.ofNats 3715469701 3343922731 4458563641
          3096224749200000 2786602274280000 3715469699040000) :=
  ⟨by decide, calculateEstimate_replicate_cv_detection_complex,
    specEstimate_replicate_cv_detection_complex⟩

/-- C1, amended: for every selection of at most 562,949,952 techs in which no techs entry,
nor the platform, nor the complexity names a property inherited from `Object.prototype`,
`calculateEstimate` returns exactly the six values of the specified algorithm: the totals
over the catalog options and the catalog platform, times the multiplier of the tier (1.5
for a key that is no tier), each of the six values rounded once, to nearest with ties up,
from its own exact product with the range factors 0.9 and 1.2. -/
theorem calculateEstimate_eq_specEstimate (s : Selections)
    (hlen : s.techs.length ≤ 562949952) (htechs : hasInheritedKey s.techs = false)
    (hp : objectPrototypeKeys.contains s.platform = false)
    (hc : objectPrototypeKeys.contains s.complexity = false) :
    calculateEstimate s = specEstimate s :=
  calculateEstimate_agrees_of_clean s hlen htechs hp hc

/-- C1, amended, at `techs = ['cv_detection', 'gpu', 'edge_inference']`, the platform `rpi`
and the complexity `complex`. -/
theorem calculateEstimate_eq_specEstimate_witness :
    ((["cv_detection", "gpu", "edge_inference"] : List String).length ≤ 562949952 ∧
      hasInheritedKey ["cv_detection", "gpu", "edge_inference"] = false ∧
      objectPrototypeKeys.contains "rpi" = false ∧
      objectPrototypeKeys.contains "complex" = false) ∧
    calculateEstimate ⟨["cv_detection", "gpu", "edge_inference"], "rpi", "complex"⟩ =
      specEstimate ⟨["cv_detection", "gpu", "edge_inference"], "rpi", "complex"⟩ :=
  ⟨by decide,
    calculateEstimate_eq_specEstimate ⟨["cv_detection", "gpu", "edge_inference"], "rpi", "complex"⟩
      (by decide) (by decide) (by decide) (by decide)⟩

/-- C2: for `techs = ['cv_detection']`, platform `rpi` and complexity `standard` the
estimate is 12, 11, 14 weeks and 9,000,000, 8,100,000, 10,800,000. -/
theorem calculateEstimate_cv_detection_standard :
    calculateEstimate ⟨["cv_detection"], "rpi", "standard"⟩ =
      Estimate.ofNats 12 11 14 9000000 8100000 10800000 := by
  decide

/-- C3: every estimate satisfies `durationMin <= durationBase <= durationMax` and
`costMin <= costBase <= costMax`. The code breaks this for `techs = ['toString']`: every
field is NaN and no comparison with NaN holds. -/
theorem calculateEstimate_inherited_key_not_ordered :
    calculateEstimate ⟨["toString"], "rpi", "standard"⟩ = Estimate.allNaN ∧
    (calculateEstimate ⟨["toString"], "rpi", "standard"⟩).ordered = false ∧
    JsNum.le (calculateEstimate ⟨["toString"], "rpi", "standard"⟩).durationMin
      (calculateEstimate ⟨["toString"], "rpi", "standard"⟩).durationBase = false := by
  decide

/-- C4: a complexity key that is no tier gives the estimate of `standard`. The code breaks
this for the key `constructor`: the lookup yields a truthy built-in whose `multiplier` is
`undefined`, so all six fields are NaN, where `standard` gives
8, 7, 9, 5,250,000, 4,725,000, 6,300,000. -/
theorem calculateEstimate_inherited_complexity_not_default :
    calculateEstimate ⟨[], "rpi", "constructor"⟩ = Estimate.allNaN ∧
    calculateEstimate ⟨[], "rpi", "standard"⟩ =
      Estimate.ofNats 8 7 9 5250000 4725000 6300000 := by
  decide

/-- C5: inserting a key that is no catalog option leaves the estimate unchanged. The code
breaks this for the key `valueOf` inserted after `cv_detection`: all six fields become
NaN, where the list without it gives 12, 11, 14, 9,000,000, 8,100,000, 10,800,000. -/
theorem calculateEstimate_inherited_key_not_ignored :
    calculateEstimate ⟨["cv_detection", "valueOf"], "rpi", "standard"⟩ = Estimate.allNaN ∧
    calculateEstimate ⟨["cv_detection"], "rpi", "standard"⟩ =
      Estimate.ofNats 12 11 14 9000000 8100000 10800000 := by
  decide

/-- C6, as stated: the surcharge is added for every platform value. It is not: the
removed platform key `jetson` is no property of `PRICING_CONFIG.platforms`, the guard
`if (platformConfig)` skips it, and the estimate is 6, 5, 7, 4,500,000, 4,050,000,
5,400,000 instead of the 8, 7, 9, 5,250,000, 4,725,000, 6,300,000 of `rpi`. -/
theorem platform_surcharge_skipped_for_unknown_key :
    calculateEstimate ⟨[], "jetson", "standard"⟩ =
      Estimate.ofNats 6 5 7 4500000 4050000 5400000 ∧
    calculateEstimate ⟨[], "rpi", "standard"⟩ =
      Estimate.ofNats 8 7 9 5250000 4725000 6300000 ∧
    calculateEstimate ⟨[], "jetson", "standard"⟩ ≠ calculateEstimate ⟨[], "rpi", "standard"⟩ := by
  decide

/-- C6, amended: the surcharge (1 week, 500,000) is added when the platform key is `rpi`
and not when it is a key that is no property of `PRICING_CONFIG.platforms`. For every
array `techs` without inherited keys and every complexity key, the estimate for `rpi` is
computed from the totals `4 + sum + 1` and `3,000,000 + sum + 500,000`, and the estimate
for such an unknown platform key from `4 + sum` and `3,000,000 + sum`. -/
theorem platform_surcharge_iff_rpi (techs : List String) (p c : String)
    (hlen : techs.length ≤ maxArrayLength) (hclean : hasInheritedKey techs = false)
    (hp : p ≠ "rpi") (hk : objectPrototypeKeys.contains p = false) :
    calculateEstimate ⟨techs, "rpi", c⟩ =
      estimateOf
        (JsNum.int (4 + sumDuration techs + 1), JsNum.int (3000000 + sumCost techs + 500000))
        (multiplierOf c) ∧
    calculateEstimate ⟨techs, p, c⟩ =
      estimateOf (JsNum.int (4 + sumDuration techs), JsNum.int (3000000 + sumCost techs))
        (multiplierOf c) := by
  constructor
  · simp only [calculateEstimate, totals_rpi techs c hlen hclean]
  · simp only [calculateEstimate, totals_unknown_platform techs p c hlen hclean hp hk]

/-- C6, amended, at `techs = ['cv_detection']`, the unknown platform `jetson` and the
complexity `standard`. -/
theorem platform_surcharge_iff_rpi_witness :
    (["cv_detection"].length ≤ maxArrayLength ∧ hasInheritedKey ["cv_detection"] = false ∧
      "jetson" ≠ "rpi" ∧ objectPrototypeKeys.contains "jetson" = false) ∧
    calculateEstimate ⟨["cv_detection"], "rpi", "standard"⟩ =
      estimateOf
        (JsNum.int (4 + sumDuration ["cv_detection"] + 1),
          JsNum.int (3000000 + sumCost ["cv_detection"] + 500000))
        (multiplierOf "standard") ∧
    calculateEstimate ⟨["cv_detection"], "jetson", "standard"⟩ =
      estimateOf
        (JsNum.int (4 + sumDuration ["cv_detection"]),
          JsNum.int (3000000 + sumCost ["cv_detection"]))
        (multiplierOf "standard") :=
  ⟨by decide,
    platform_surcharge_iff_rpi ["cv_detection"] "jetson" "standard"
      (by decide) (by decide) (by decide) (by decide)⟩

/-- C7: appending a key never lowers `durationBase` or `costBase`. The code breaks this for
the key `hasOwnProperty` appended to the empty list: both point estimates turn from 8 and
5,250,000 into NaN, and neither `8 <= NaN` nor `5250000 <= NaN` holds. -/
theorem appended_inherited_key_loses_point_estimate :
    (calculateEstimate ⟨[], "rpi", "standard"⟩).durationBase = JsNum.int 8 ∧
    (calculateEstimate ⟨[], "rpi", "standard"⟩).costBase = JsNum.int 5250000 ∧
    (calculateEstimate ⟨[] ++ ["hasOwnProperty"], "rpi", "standard"⟩).durationBase = JsNum.nan ∧
    (calculateEstimate ⟨[] ++ ["hasOwnProperty"], "rpi", "standard"⟩).costBase = JsNum.nan ∧
    JsNum.le (calculateEstimate ⟨[], "rpi", "standard"⟩).durationBase
      (calculateEstimate ⟨[] ++ ["hasOwnProperty"], "rpi", "standard"⟩).durationBase = false ∧
    JsNum.le (calculateEstimate ⟨[], "rpi", "standard"⟩).costBase
      (calculateEstimate ⟨[] ++ ["hasOwnProperty"], "rpi", "standard"⟩).costBase = false := by
  decide

/-- C8: the estimate does not depend on the order of the selected keys: for every array
and every permutation of it, with the same platform and complexity, `calculateEstimate`
returns the same six fields. -/
theorem calculateEstimate_perm (l₁ l₂ : List String) (p c : String)
    (hlen : l₁.length ≤ maxArrayLength) (hperm : l₁.Perm l₂) :
    calculateEstimate ⟨l₁, p, c⟩ = calculateEstimate ⟨l₂, p, c⟩ := by
  have hlen2 : l₂.length ≤ maxArrayLength := hperm.length_eq ▸ hlen
  have hi : hasInheritedKey l₁ = hasInheritedKey l₂ :=
    hasInheritedKey_eq_of_mem_iff fun _ => hperm.mem_iff
  have hd : sumDuration l₁ = sumDuration l₂ := (hperm.map optionDuration).sum_eq
  have hc : sumCost l₁ = sumCost l₂ := (hperm.map optionCost).sum_eq
  simp only [calculateEstimate, totals, techTotals_eq l₁ hlen, techTotals_eq l₂ hlen2, hi, hd, hc]

/-- C8 at the two orders of `cv_detection` and `edge_inference`. -/
theorem calculateEstimate_perm_witness :
    (["cv_detection", "edge_inference"].length ≤ maxArrayLength ∧
      ["cv_detection", "edge_inference"].Perm ["edge_inference", "cv_detection"]) ∧
    calculateEstimate ⟨["cv_detection", "edge_inference"], "rpi", "complex"⟩ =
      calculateEstimate ⟨["edge_inference", "cv_detection"], "rpi", "complex"⟩ :=
  ⟨⟨by decide, List.Perm.swap _ _ _⟩,
    calculateEstimate_perm _ _ "rpi" "complex" (by decide) (List.Perm.swap _ _ _)⟩

/-- C9, as stated: two lists with the same set of distinct keys give the same estimate.
They do not: `['cv_detection', 'cv_detection']` and `['cv_detection']` contain the same
keys, and the loop adds the weight of `cv_detection` once per occurrence, giving
17, 15, 20, 12,750,000, 11,475,000, 15,300,000 against
12, 11, 14, 9,000,000, 8,100,000, 10,800,000. -/
theorem repeated_option_counted_twice :
    (∀ k : String, k ∈ ["cv_detection", "cv_detection"] ↔ k ∈ ["cv_detection"]) ∧
    calculateEstimate ⟨["cv_detection", "cv_detection"], "rpi", "standard"⟩ =
      Estimate.ofNats 17 15 20 12750000 11475000 15300000 ∧
    calculateEstimate ⟨["cv_detection"], "rpi", "standard"⟩ =
      Estimate.ofNats 12 11 14 9000000 8100000 10800000 := by
  refine ⟨fun k => by simp, by decide, by decide⟩

/-- C9, amended: the catalog options have multiset semantics and every other key set
semantics. Two arrays that contain the same set of distinct keys, and each catalog option
the same number of times, give the same estimate with the same platform and complexity. -/
theorem calculateEstimate_same_keys_same_option_counts (l₁ l₂ : List String) (p c : String)
    (hlen₁ : l₁.length ≤ maxArrayLength) (hlen₂ : l₂.length ≤ maxArrayLength)
    (hkeys : ∀ k : String, k ∈ l₁ ↔ k ∈ l₂)
    (hcount : ∀ k : String, (PRICING_CONFIG.techs.lookup k).isSome = true →
      l₁.count k = l₂.count k) :
    calculateEstimate ⟨l₁, p, c⟩ = calculateEstimate ⟨l₂, p, c⟩ := by
  have hi : hasInheritedKey l₁ = hasInheritedKey l₂ := hasInheritedKey_eq_of_mem_iff hkeys
  have c1 := hcount "cv_detection" (by decide)
  have c2 := hcount "cv_classification" (by decide)
  have c3 := hcount "sensor_integration" (by decide)
  have c4 := hcount "edge_inference" (by decide)
  have hd : sumDuration l₁ = sumDuration l₂ := by
    rw [sumDuration_eq_count, sumDuration_eq_count, c1, c2, c3, c4]
  have hc : sumCost l₁ = sumCost l₂ := by
    rw [sumCost_eq_count, sumCost_eq_count, c1, c2, c3, c4]
  simp only [calculateEstimate, totals, techTotals_eq l₁ hlen₁, techTotals_eq l₂ hlen₂, hi, hd,
    hc]

/-- C9, amended, at two lists that repeat the unknown key `gpu` differently. -/
theorem calculateEstimate_same_keys_same_option_counts_witness :
    (["gpu", "cv_detection", "gpu"].length ≤ maxArrayLength ∧
      ["cv_detection", "gpu"].length ≤ maxArrayLength ∧
      (∀ k : String, k ∈ ["gpu", "cv_detection", "gpu"] ↔ k ∈ ["cv_detection", "gpu"]) ∧
      (∀ k : String, (PRICING_CONFIG.techs.lookup k).isSome = true →
        ["gpu", "cv_detection", "gpu"].count k = ["cv_detection", "gpu"].count k)) ∧
    calculateEstimate ⟨["gpu", "cv_detection", "gpu"], "rpi", "simple"⟩ =
      calculateEstimate ⟨["cv_detection", "gpu"], "rpi", "simple"⟩ :=
  have hkeys : ∀ k : String, k ∈ ["gpu", "cv_detection", "gpu"] ↔ k ∈ ["cv_detection", "gpu"] :=
    fun k => by simp; tauto
  have hcount : ∀ k : String, (PRICING_CONFIG.techs.lookup k).isSome = true →
      ["gpu", "cv_detection", "gpu"].count k = ["cv_detection", "gpu"].count k := by
    intro k hk
    have hne : k ≠ "gpu" := by
      intro h; subst h; exact absurd hk (by decide)
    have hb : ("gpu" == k) = false := beq_eq_false_iff_ne.mpr (Ne.symm hne)
    simp [List.count_cons, hb]
  ⟨⟨by decide, by decide, hkeys, hcount⟩,
    calculateEstimate_same_keys_same_option_counts _ _ "rpi" "simple" (by decide) (by decide)
      hkeys hcount⟩

/-- C10: with no optional techs, the platform `rpi` and the tier `standard`, the totals
are the base values plus the surcharge, 5 and 3,500,000, the multiplier is 1.5, the
products are exactly 7.5, 6.75 and 9, and the estimate is 8, 7, 9 weeks and 5,250,000,
4,725,000, 6,300,000. -/
theorem calculateEstimate_default_selection :
    totals ⟨[], "rpi", "standard"⟩ = (JsNum.int (4 + 1), JsNum.int (3000000 + 500000)) ∧
    multiplierOf "standard" = JsNum.lit_1_5 ∧
    (JsNum.int 5).mul JsNum.lit_1_5 = JsNum.fin 15 1 ∧
    ((JsNum.int 5).mul JsNum.lit_1_5).mul JsNum.lit_0_9 = JsNum.fin (27 * 2 ^ 52) 54 ∧
    ((JsNum.int 5).mul JsNum.lit_1_5).mul JsNum.lit_1_2 = JsNum.fin (9 * 2 ^ 53) 53 ∧
    calculateEstimate ⟨[], "rpi", "standard"⟩ =
      Estimate.ofNats 8 7 9 5250000 4725000 6300000 := by
  decide

/-- C11, as stated: `calculateEstimate` raises no exception and returns six integers for
every input. It does not: for a selection whose `techs` field is missing, `techs.forEach`
throws a TypeError, and for `techs = ['constructor']` the six fields are NaN. -/
theorem calculateEstimate_throws_or_returns_nan :
    calculateEstimateRaw ⟨none, some "rpi", some "standard"⟩ = CallResult.typeError ∧
    calculateEstimateRaw ⟨some ["constructor"], some "rpi", some "standard"⟩ =
      CallResult.returned Estimate.allNaN ∧
    Estimate.allNaN.integral = false := by
  decide

/-- C11, amended: `calculateEstimate` is total on the selections whose `techs` field is an
array: it raises no exception, and when no techs entry, nor the platform, nor the
complexity names an inherited property (unknown keys allowed, a missing platform or
complexity counting as the unknown key `undefined`), the six fields are all integers. -/
theorem calculateEstimateRaw_returns_integers (s : RawSelections) (techs : List String)
    (ht : s.techs = some techs) (hlen : techs.length ≤ maxArrayLength)
    (hclean : hasInheritedKey techs = false)
    (hp : objectPrototypeKeys.contains (propertyKey s.platform) = false)
    (hc : objectPrototypeKeys.contains (propertyKey s.complexity) = false) :
    ∃ e : Estimate, calculateEstimateRaw s = CallResult.returned e ∧ e.integral = true := by
  refine ⟨calculateEstimate ⟨techs, propertyKey s.platform, propertyKey s.complexity⟩, ?_,
    calculateEstimate_integral_of_clean techs _ _ hlen hclean hp hc⟩
  simp only [calculateEstimateRaw, ht]

/-- C11, amended, at `techs = ['cv_detection', 'gpu']` with the platform and the complexity
missing. -/
theorem calculateEstimateRaw_returns_integers_witness :
    ((⟨some ["cv_detection", "gpu"], none, none⟩ : RawSelections).techs =
        some ["cv_detection", "gpu"] ∧
      ["cv_detection", "gpu"].length ≤ maxArrayLength ∧
      hasInheritedKey ["cv_detection", "gpu"] = false ∧
      objectPrototypeKeys.contains (propertyKey none) = false ∧
      objectPrototypeKeys.contains (propertyKey none) = false) ∧
    ∃ e : Estimate,
      calculateEstimateRaw ⟨some ["cv_detection", "gpu"], none, none⟩ =
        CallResult.returned e ∧ e.integral = true :=
  ⟨by decide,
    calculateEstimateRaw_returns_integers ⟨some ["cv_detection", "gpu"], none, none⟩
      ["cv_detection", "gpu"] rfl (by decide) (by decide) (by decide) (by decide)⟩

set_option maxRecDepth 100000 in
/-- C12, as stated: for every non-negative integer amount `formatMan` formats
`round(amount / 10000)`. It does not for large amounts: 87,960,930,222,084,992 is a
binary64 integer, its quotient by 10,000 is 8,796,093,022,208.4992, the binary64 division
gives 8,796,093,022,208.5, and `formatMan` returns the digits of 8,796,093,022,209 where
the exact quotient rounds to 8,796,093,022,208. -/
theorem formatMan_large_amount_rounds_up :
    JsNum.roundSignificand 87960930222084992 = 87960930222084992 ∧
    (JsNum.int 87960930222084992).div (JsNum.int 10000) = JsNum.fin (17592186044417 * 2 ^ 13) 14 ∧
    formatMan (JsNum.int 87960930222084992) = "8,796,093,022,209만" ∧
    groupThousands (roundHalfUp 87960930222084992 10000) ++ "만" = "8,796,093,022,208만" := by
  decide

/-- C12, amended: for every non-negative integer amount below `2 ^ 53`, `formatMan(amount)`
is the decimal representation of `round(amount / 10000)`, rounded to nearest with ties up,
with a comma between every group of three digits counted from the right, followed by the
suffix `만`; in particular `formatMan(13500000)` is `1,350만`. -/
theorem formatMan_groups_rounded_quotient (amount : Nat) (h : amount < 2 ^ 53) :
    formatMan (JsNum.int amount) = groupThousands (roundHalfUp amount 10000) ++ "만" ∧
    formatMan (JsNum.int 13500000) = "1,350만" :=
  ⟨formatMan_int amount h, by decide⟩

/-- C12, amended, at the amount 4,725,000. -/
theorem formatMan_groups_rounded_quotient_witness :
    4725000 < 2 ^ 53 ∧
    (formatMan (JsNum.int 4725000) = groupThousands (roundHalfUp 4725000 10000) ++ "만" ∧
      formatMan (JsNum.int 13500000) = "1,350만") :=
  ⟨by decide, formatMan_groups_rounded_quotient 4725000 (by decide)⟩

/-- C13: the independent rounding is observable. With no techs, `rpi` and `standard` the
unrounded duration is 7.5: `calculateEstimate` returns `durationBase` 8 and `durationMax`
`round(7.5 * 1.2) = 9`, where the range factor applied to the rounded point gives
`round(8 * 1.2) = 10`; so the reimplementation that rounds the range from the rounded
point differs from `calculateEstimate` on some selection. -/
theorem independent_rounding_observable :
    (calculateEstimate ⟨[], "rpi", "standard"⟩).durationBase = JsNum.int 8 ∧
    (calculateEstimate ⟨[], "rpi", "standard"⟩).durationMax = JsNum.int 9 ∧
    ((calculateEstimate ⟨[], "rpi", "standard"⟩).durationBase.mul
      PRICING_CONFIG.rangeMax).mathRound = JsNum.int 10 ∧
    ∃ s : Selections,
      ((calculateEstimate s).durationMin ≠
          ((calculateEstimate s).durationBase.mul PRICING_CONFIG.rangeMin).mathRound ∨
        (calculateEstimate s).durationMax ≠
          ((calculateEstimate s).durationBase.mul PRICING_CONFIG.rangeMax).mathRound) ∧
      calculateEstimate s ≠ estimateFromRoundedPoint s :=
  ⟨by decide, by decide, by decide, ⟨[], "rpi", "standard"⟩, by decide⟩

/-- C14: `getSelections` returns the values of the checked `techs` inputs in order, the
platform `rpi`, and the value of the checked `complexity` input or `standard` when none is
checked; so `updateResult` on a form with nothing checked renders the estimate of the
default selection, no techs with `rpi` and `standard`: 8, 7, 9, 5,250,000, 4,725,000,
6,300,000. -/
theorem getSelections_reads_form (form : FormState) (page : Page) :
    (getSelections form).techs = form.checkedTechs.map Input.value ∧
    (getSelections form).platform = "rpi" ∧
    (getSelections form).complexity =
      (form.checkedComplexity.map Input.value).getD "standard" ∧
    getSelections ⟨[], none⟩ = ⟨[], "rpi", "standard"⟩ ∧
    updateResult ⟨[], none⟩ page =
      renderResult (calculateEstimate ⟨[], "rpi", "standard"⟩) ⟨[], "rpi", "standard"⟩ page ∧
    calculateEstimate (getSelections ⟨[], none⟩) =
      Estimate.ofNats 8 7 9 5250000 4725000 6300000 := by
  refine ⟨rfl, rfl, ?_, rfl, rfl, by decide⟩
  cases h : form.checkedComplexity <;> simp [getSelections, h]

/-- C15, as stated: `renderResult` is a no-op whenever one of the seven elements is absent.
It is not: on a page with every element but `durationRange`, on the first render, it shows
the card, hides the placeholder, starts the duration animation, and then throws a
TypeError at `durationRange.textContent`. -/
theorem renderResult_throws_without_durationRange :
    renderResult (calculateEstimate ⟨[], "rpi", "standard"⟩) ⟨[], "rpi", "standard"⟩
        pageWithoutDurationRange =
      Completion.threw
        { pageWithoutDurationRange with
          resultPlaceholder := some ⟨true, [], []⟩
          resultCard := some ⟨false, [], []⟩
          animations := [⟨Display.duration, JsNum.int 7, JsNum.int 9, JsNum.int 900⟩] } := by
  decide

/-- C15, amended: a missing result container makes the presentation layer a no-op: on every
page in which `resultCard` or `resultPlaceholder` is absent, `renderResult` raises no error
and leaves every element unchanged and starts no animation; likewise `init` does nothing
when `estimatorForm` is absent. -/
theorem renderResult_noop_without_container (estimate : Estimate) (selections : Selections)
    (page : Page) (doc : Document)
    (hpage : page.resultCard = none ∨ page.resultPlaceholder = none)
    (hdoc : doc.estimatorForm = none) :
    renderResult estimate selections page = Completion.normal page ∧
    init doc = (doc, false) := by
  constructor
  · unfold renderResult
    rcases hpage with h | h
    · rw [h]
    · rw [h]; cases page.resultCard <;> rfl
  · unfold init
    rw [hdoc]

/-- C15, amended, at the page without the result card and a document without the form. -/
theorem renderResult_noop_without_container_witness :
    ((pageWithoutCard.resultCard = none ∨ pageWithoutCard.resultPlaceholder = none) ∧
      (⟨none, pageWithoutCard, 0⟩ : Document).estimatorForm = none) ∧
    renderResult (calculateEstimate ⟨[], "rpi", "standard"⟩) ⟨[], "rpi", "standard"⟩
        pageWithoutCard = Completion.normal pageWithoutCard ∧
    init ⟨none, pageWithoutCard, 0⟩ = (⟨none, pageWithoutCard, 0⟩, false) :=
  ⟨⟨Or.inl rfl, rfl⟩,
    renderResult_noop_without_container _ _ pageWithoutCard ⟨none, pageWithoutCard, 0⟩
      (Or.inl rfl) rfl⟩

/-- C16: the animation settles at the first tick whose time since the first frame reaches
the duration. The code breaks this when the first frame has the timestamp 0: `startTime`
is set to 0, which `if (!startTime)` takes for unset at the next tick. With the duration
900 and the frames 0 and 1000, the second tick, 1000 after the first, sets `startTime` to
1000, computes the progress 0, sets the count-up text and requests a further frame instead
of settling. -/
theorem tick_restarts_after_zero_timestamp (pow3 : JsNum → JsNum) (formatter : JsNum → Text)
    (min max : JsNum) (text : Text) :
    (JsNum.int 900).le ((JsNum.int 1000).sub (JsNum.int 0)) = true ∧
    (runFrames pow3 ⟨min, max, formatter, JsNum.int 900⟩ (animateRangeDisplay text)
      [JsNum.int 0]).startTime = some (JsNum.int 0) ∧
    (runFrames pow3 ⟨min, max, formatter, JsNum.int 900⟩ (animateRangeDisplay text)
      [JsNum.int 0, JsNum.int 1000]).startTime = some (JsNum.int 1000) ∧
    (progressAt ⟨min, max, formatter, JsNum.int 900⟩ (JsNum.int 1000) (JsNum.int 1000)).falsy
      = true ∧
    (runFrames pow3 ⟨min, max, formatter, JsNum.int 900⟩ (animateRangeDisplay text)
      [JsNum.int 0, JsNum.int 1000]).frameRequested = true ∧
    (runFrames pow3 ⟨min, max, formatter, JsNum.int 900⟩ (animateRangeDisplay text)
      [JsNum.int 0, JsNum.int 1000]).text =
      formatter (max.mul ((JsNum.int 1).sub (pow3 ((JsNum.int 1).sub
        (progressAt ⟨min, max, formatter, JsNum.int 900⟩ (JsNum.int 1000)
          (JsNum.int 1000)))))).mathRound := by
  refine ⟨by decide, rfl, rfl, rfl, rfl, rfl⟩

/-- C17: no figure decreases from `simple` to `standard` to `complex`. The code breaks this
for `techs = ['constructor']`: the six fields are NaN for every tier, and no comparison
with NaN holds. -/
theorem tiers_not_ordered_with_inherited_key :
    calculateEstimate ⟨["constructor"], "rpi", "simple"⟩ = Estimate.allNaN ∧
    calculateEstimate ⟨["constructor"], "rpi", "standard"⟩ = Estimate.allNaN ∧
    calculateEstimate ⟨["constructor"], "rpi", "complex"⟩ = Estimate.allNaN ∧
    (calculateEstimate ⟨["constructor"], "rpi", "simple"⟩).allLe
      (calculateEstimate ⟨["constructor"], "rpi", "standard"⟩) = false ∧
    (calculateEstimate ⟨["constructor"], "rpi", "standard"⟩).allLe
      (calculateEstimate ⟨["constructor"], "rpi", "complex"⟩) = false := by
  decide

set_option maxRecDepth 100000 in
/-- C18, as stated: for every selection the unrounded cost products are integers, costBase
is a multiple of 10,000 and the range is exactly nine tenths and six fifths of it. Not so:
with no techs, `rpi` and `complex` the unrounded product `3500000 * 2.2` is not an integer
in binary64 (it is `7700000 + 2 ^ -30`); and with 562,949,953 copies of `cv_detection` the
results are 3,096,224,749,200,001, 2,786,602,274,280,001 and 3,715,469,699,040,001:
costBase is no multiple of 10,000 and `10 * costMin` is not `9 * costBase`. -/
theorem cost_products_not_exact :
    (totals ⟨[], "rpi", "complex"⟩).2 = JsNum.int 3500000 ∧
    (JsNum.int 3500000).mul (multiplierOf "complex") =
      JsNum.fin ((7700000 * 2 ^ 30 + 1) * 2 ^ 20) 50 ∧
    ((JsNum.int 3500000).mul (multiplierOf "complex")).isInteger = false ∧
    (calculateEstimate ⟨List.replicate 562949953 "cv_detection", "rpi", "complex"⟩ =
      Estimate.ofNats 3715469701 3343922731 4458563641
        3096224749200001 2786602274280001 3715469699040001) ∧
    ¬ 10000 ∣ 3096224749200001 ∧
    10 * 2786602274280001 ≠ 9 * 3096224749200001 :=
  ⟨by decide, by decide, by decide, calculateEstimate_replicate_cv_detection_complex,
    by decide, by decide⟩

/-- C18, amended: the cost figures carry no rounding error after `Math.round`: for every
selection of at most 562,949,952 techs in which no techs entry, nor the platform, nor the
complexity names an inherited property, the three cost fields are integers, costBase is a
multiple of 10,000, and the range is exactly -10% and +20% of it: `10 * costMin` is
`9 * costBase` and `5 * costMax` is `6 * costBase`. -/
theorem cost_figures_exact (s : Selections)
    (hlen : s.techs.length ≤ 562949952) (htechs : hasInheritedKey s.techs = false)
    (hp : objectPrototypeKeys.contains s.platform = false)
    (hc : objectPrototypeKeys.contains s.complexity = false) :
    ∃ base lo hi : Nat,
      (calculateEstimate s).costBase = JsNum.int base ∧
      (calculateEstimate s).costMin = JsNum.int lo ∧
      (calculateEstimate s).costMax = JsNum.int hi ∧
      10000 ∣ base ∧ 10 * lo = 9 * base ∧ 5 * hi = 6 * base := by
  rw [calculateEstimate_agrees_of_clean s hlen htechs hp hc]
  exact specEstimate_cost_exact s

/-- C18, amended, at `techs = ['cv_detection', 'cv_detection', 'gpu']`, `rpi` and
`complex`. -/
theorem cost_figures_exact_witness :
    ((["cv_detection", "cv_detection", "gpu"] : List String).length ≤ 562949952 ∧
      hasInheritedKey ["cv_detection", "cv_detection", "gpu"] = false ∧
      objectPrototypeKeys.contains "rpi" = false ∧
      objectPrototypeKeys.contains "complex" = false) ∧
    ∃ base lo hi : Nat,
      (calculateEstimate ⟨["cv_detection", "cv_detection", "gpu"], "rpi", "complex"⟩).costBase =
        JsNum.int base ∧
      (calculateEstimate ⟨["cv_detection", "cv_detection", "gpu"], "rpi", "complex"⟩).costMin =
        JsNum.int lo ∧
      (calculateEstimate ⟨["cv_detection", "cv_detection", "gpu"], "rpi", "complex"⟩).costMax =
        JsNum.int hi ∧
      10000 ∣ base ∧ 10 * lo = 9 * base ∧ 5 * hi = 6 * base :=
  ⟨by decide,
    cost_figures_exact ⟨["cv_detection", "cv_detection", "gpu"], "rpi", "complex"⟩
      (by decide) (by decide) (by decide) (by decide)⟩

end Estimator
